import Mathlib

namespace UFOProcessor

section Main

variable {C T G V Mut : Type}

/-!
Verification development for the `ufoProcessor` package
(`Lib/ufoProcessor/__init__.py`).

The development is a shallow embedding of the Python source.  Pure data
manipulation (locations, the glyph-swap algorithm, the mutator cache, the
instance-assembly control flow) is translated faithfully into Lean
definitions.  The external collaborators that the spec declares out of
scope (defcon's outline object model and point-pen protocol, fontMath's
math-object arithmetic, the mutatorMath / varLib variation-model solvers)
are represented by abstract type parameters and explicit oracle functions
bundled in an `Externals` record; their *call sites*, error paths and the
data that flows between them are the translated part.

Python dictionaries are modelled as functions into `Option`, Python lists
as `List`, and Python exceptions as an explicit `PyRes` result type that
carries the (mutated) state alongside either a normal result or a raised
exception, so that side effects performed before a raise are preserved,
exactly as in Python.
-/

/-! ## Location model (`isAnisotropic`, `splitAnisotropic`, lines 625-640) -/

/-- A value in a design-space location: either a plain scalar or an
anisotropic `(horizontal, vertical)` pair (a Python 2-tuple). -/
inductive LocVal where
  | scalar (v : ℚ)
  | pair (x y : ℚ)
deriving DecidableEq, Repr

/-- A design-space location: a mapping from axis names to values.  Python
uses a `dict`; we keep the item list (`location.items()`), which is what
every loop in the source iterates over. -/
abbrev Loc := List (String × LocVal)

/-- Translation of `DesignSpaceProcessor.isAnisotropic` (lines 625-629):
`for v in location.values(): if type(v)==tuple: return True` / `return False`. -/
def isAnisotropic (location : Loc) : Bool :=
  location.any fun dv =>
    match dv.2 with
    | .pair _ _ => true
    | .scalar _ => false

/-- The horizontal half of one axis value: a pair `(x, y)` contributes `x`,
a scalar is copied unchanged (`x[dim] = val[0]` / `x[dim] = val`). -/
def LocVal.horizontalPart : LocVal → LocVal
  | .pair a _ => .scalar a
  | .scalar v => .scalar v

/-- The vertical half of one axis value: a pair `(x, y)` contributes `y`,
a scalar is copied unchanged (`y[dim] = val[1]` / `y[dim] = val`). -/
def LocVal.verticalPart : LocVal → LocVal
  | .pair _ b => .scalar b
  | .scalar v => .scalar v

/-- Translation of `DesignSpaceProcessor.splitAnisotropic` (lines 631-640).
The Python loop builds the two dicts `x` and `y` in a single pass over
`location.items()`; per item the effect is exactly `horizontalPart` /
`verticalPart`, so the loop is rendered as two structure-preserving maps. -/
def splitAnisotropic (location : Loc) : Loc × Loc :=
  (location.map fun dv => (dv.1, dv.2.horizontalPart),
   location.map fun dv => (dv.1, dv.2.verticalPart))

/-- Modelled from the spec: the source repository has no explicit
recombination function for split locations (downstream code recombines
*evaluated values*, not locations); the spec's "pairwise recombination"
companion of `split` merges the two halves axis by axis, producing a pair
where the two halves differ and a scalar where they agree. -/
def combineAnisotropic (x y : Loc) : Loc :=
  List.zipWith
    (fun (a b : String × LocVal) =>
      (a.1,
        match a.2, b.2 with
        | .scalar h, .scalar v => if h = v then LocVal.scalar h else .pair h v
        | u, _ => u))
    x y

/-- A location value is a degenerate pair when it is a pair whose two
components coincide; recombination collapses such a pair to a scalar. -/
def LocVal.degeneratePair : LocVal → Prop
  | .pair a b => a = b
  | .scalar _ => False

instance (v : LocVal) : Decidable v.degeneratePair := by
  cases v <;> simp [LocVal.degeneratePair] <;> infer_instance

/-! ## Font model for `swapGlyphNames` (lines 119-195)

`swapGlyphNames` operates on a defcon `Font`.  The parts of the object
model it touches are: the glyph set (a dict of glyphs, each with contours,
components, a width and unicodes), the kerning dict and the groups dict.
Contour data and component transformations are opaque to the algorithm, so
they are type parameters.  Drawing a glyph into another glyph's point pen
(`getPointPen` / `drawPoints`) appends the source glyph's contours and
components to the target. -/

/-- A component reference: a base glyph name plus an opaque transformation. -/
structure Component (T : Type) where
  baseGlyph : String
  transformation : T
deriving DecidableEq, Repr

/-- The data of one glyph, keyed in the font by its name.  `clear()` resets
contours and components but leaves width and unicodes alone. -/
structure GlyphData (C T : Type) where
  contours : List C
  components : List (Component T)
  width : ℚ
  unicodes : List Nat
deriving DecidableEq, Repr

/-- A freshly created glyph (`font.newGlyph(name)`): empty outline,
zero width, no unicodes. -/
def GlyphData.empty {C T : Type} : GlyphData C T :=
  { contours := [], components := [], width := 0, unicodes := [] }

/-- `glyph.clear()`: remove contours and components; width and unicodes
are untouched by defcon's `clear`. -/
def GlyphData.clear {C T : Type} (g : GlyphData C T) : GlyphData C T :=
  { g with contours := [], components := [] }

/-- The slice of a defcon font that `swapGlyphNames` reads and writes:
glyph set (dict name → glyph), kerning (dict pair-of-names → value) and
groups (dict group name → member list). -/
@[ext]
structure Font (C T : Type) where
  glyphs : String → Option (GlyphData C T)
  kerning : List ((String × String) × ℚ)
  groups : List (String × List String)

/-- `name in font` membership test. -/
def Font.mem {C T : Type} (f : Font C T) (n : String) : Bool :=
  (f.glyphs n).isSome

/-- `font[n]` lookup; the algorithm only reads names it has checked or
created, so the default is never observed in the guarded paths. -/
def Font.get {C T : Type} (f : Font C T) (n : String) : GlyphData C T :=
  (f.glyphs n).getD GlyphData.empty

/-- `font.newGlyph(n)`: insert a fresh empty glyph under `n`. -/
def Font.newGlyph {C T : Type} (f : Font C T) (n : String) : Font C T :=
  { f with glyphs := fun m => if m = n then some GlyphData.empty else f.glyphs m }

/-- Apply `fn` to the glyph stored under `n` (a mutating method call on
`font[n]`). -/
def Font.modifyGlyph {C T : Type} (f : Font C T) (n : String)
    (fn : GlyphData C T → GlyphData C T) : Font C T :=
  { f with glyphs := fun m => if m = n then (f.glyphs m).map fn else f.glyphs m }

/-- `p = font[dst].getPointPen(); font[src].drawPoints(p)`: append the
source glyph's contours and components to the destination glyph. -/
def Font.copyOutlineAppend {C T : Type} (f : Font C T) (src dst : String) : Font C T :=
  let s := f.get src
  f.modifyGlyph dst fun g =>
    { g with contours := g.contours ++ s.contours,
             components := g.components ++ s.components }

/-- `font[dst].width = font[src].width`. -/
def Font.setWidthFrom {C T : Type} (f : Font C T) (src dst : String) : Font C T :=
  let w := (f.get src).width
  f.modifyGlyph dst fun g => { g with width := w }

/-- `if c.baseGlyph == a: c.baseGlyph = b` for one component. -/
def remapOne {T : Type} (a b : String) (c : Component T) : Component T :=
  if c.baseGlyph = a then { c with baseGlyph := b } else c

/-- One full component-remap pass over the glyph set
(`for g in font: for c in g.components: if c.baseGlyph == a: c.baseGlyph = b`). -/
def Font.remapComponents {C T : Type} (f : Font C T) (a b : String) : Font C T :=
  { f with glyphs := fun m =>
      (f.glyphs m).map fun g =>
        { g with components := g.components.map (remapOne a b) } }

/-- The name remap used for kerning pairs and group members:
`if n == oldName: n = newName; elif n == newName: n = oldName`. -/
def swapNameSubst (oldName newName n : String) : String :=
  if n = oldName then newName else if n = newName then oldName else n

/-- The default `swapNameExtension` parameter of `swapGlyphNames`
(fifteen underscores followed by `swap`). -/
def swapNameExtension : String := "_______________swap"

/-- `g.name.find(swapNameExtension) != -1`: substring containment. -/
def nameHasSwapExtension (n : String) : Bool :=
  decide (swapNameExtension.toList <:+: n.toList)

/-- Translation of `swapGlyphNames(font, oldName, newName)` (lines
119-195), as a state transformer on the font.  The Python function
mutates `font` in place and returns `None`; the early `return None` when
either name is missing leaves the font untouched, which here is the
identity result.  Each `let` line mirrors one statement of the source, in
source order. -/
def swapGlyphNames {C T : Type} (font : Font C T) (oldName newName : String) : Font C T :=
  if ¬ (font.mem oldName ∧ font.mem newName) then font
  else
    let swapName := oldName ++ swapNameExtension
    -- park the old glyph
    let f1 := if font.mem swapName then font else font.newGlyph swapName
    -- swap the outlines
    let f2 := f1.modifyGlyph swapName GlyphData.clear
    let f3 := f2.copyOutlineAppend oldName swapName
    let f4 := f3.setWidthFrom oldName swapName
    let f5 := f4.modifyGlyph oldName GlyphData.clear
    let f6 := f5.copyOutlineAppend newName oldName
    let f7 := f6.setWidthFrom newName oldName
    let f8 := f7.modifyGlyph newName GlyphData.clear
    let f9 := f8.copyOutlineAppend swapName newName
    let f10 := f9.setWidthFrom swapName newName
    -- remap the components: three separate full passes, in this order
    let f11 := f10.remapComponents oldName swapName
    let f12 := f11.remapComponents newName oldName
    let f13 := f12.remapComponents swapName newName
    -- rebuild the kerning into a fresh table and replace the original
    let f14 := { f13 with kerning := f13.kerning.map fun (e : (String × String) × ℚ) =>
        ((swapNameSubst oldName newName e.1.1, swapNameSubst oldName newName e.1.2), e.2) }
    -- change the names in groups
    let f15 := { f14 with groups := f14.groups.map fun (gr : String × List String) =>
        (gr.1, gr.2.map (swapNameSubst oldName newName)) }
    -- delete every glyph whose name contains the swap extension
    { f15 with glyphs := fun m =>
        if nameHasSwapExtension m then none else f15.glyphs m }

/-! ### Characterizing `swapGlyphNames` -/

/-- The net effect of the three component-remap passes on one component:
its base-glyph name goes through the old/new exchange. -/
def Component.swapBase {T : Type} (old new : String) (c : Component T) : Component T :=
  { c with baseGlyph := swapNameSubst old new c.baseGlyph }

/-- Explicit description of the outcome of a successful
`swapGlyphNames font old new` on a font that carries no glyph whose name
contains the swap extension and no component reference to the parking
name: `old` ends up with `new`'s outline and width (component references
exchanged), `new` with `old`'s, every other glyph keeps its data with
component references exchanged, each glyph keeps its own unicodes, the
kerning and group names are exchanged, and every extension-carrying name
(the parking glyph included) is absent. -/
def swapOutcome {C T : Type} (f : Font C T) (old new : String) : Font C T :=
  { glyphs := fun n =>
      if nameHasSwapExtension n then none
      else (f.glyphs n).map fun g =>
        if n = old then
          { contours := (f.get new).contours,
            components := (f.get new).components.map (Component.swapBase old new),
            width := (f.get new).width,
            unicodes := g.unicodes }
        else if n = new then
          { contours := (f.get old).contours,
            components := (f.get old).components.map (Component.swapBase old new),
            width := (f.get old).width,
            unicodes := g.unicodes }
        else
          { g with components := g.components.map (Component.swapBase old new) },
    kerning := f.kerning.map fun e =>
      ((swapNameSubst old new e.1.1, swapNameSubst old new e.1.2), e.2),
    groups := f.groups.map fun gr => (gr.1, gr.2.map (swapNameSubst old new)) }

/-! ### Concrete fonts used as witnesses -/

/-- A small concrete font: `a` and `b` present, `b` references `a` as a
component, kerning and one group mention both. -/
def exampleFont : Font Nat Unit :=
  { glyphs := fun n =>
      if n = "a" then some (GlyphData.mk [1, 2] [] 500 [97])
      else if n = "b" then some (GlyphData.mk [3] [Component.mk "a" ()] 600 [98])
      else none,
    kerning := [(("a", "b"), 10), (("b", "x"), 20)],
    groups := [("g1", ["a", "x", "b"])] }

/-- `exampleFont` plus a stray glyph whose name contains the swap
extension; `swapGlyphNames` deletes it, so a double swap cannot restore
this font. -/
def strayFont : Font Nat Unit :=
  { exampleFont with glyphs := fun n =>
      if n = "c" ++ swapNameExtension then some (GlyphData.mk [9] [] 100 [])
      else exampleFont.glyphs n }

/-- A demonstration location: one anisotropic axis, one scalar axis. -/
def demoLoc : Loc := [("weight", LocVal.pair 100 200), ("width", LocVal.scalar 50)]

/-! ## Processor model (`DesignSpaceProcessor`, lines 218-623)

The processor state (`PState`) carries the fields of
`DesignSpaceProcessor` that the claimed code paths read or write: the
source descriptors, the loaded-fonts registry (`self.fonts`, a dict whose
entries are `None` when the source UFO was not found), the three mutator
caches, the problems list, the collected glyph-name list, the default
source and the rounding flag.

Python exceptions are modelled by `PyRes`: a raised exception carries the
state as mutated so far, because `self.problems` entries appended before a
raise survive it.  External collaborators (fontMath value arithmetic, the
two variation-model back ends behind `getVariationModel`, defcon glyph
drawing/decomposition, `findDefault` from fontTools) are oracle functions
bundled in `Externals`. -/

/-- The Python exception kinds distinguished by the translated code:
`except IndexError` (line 590) is the only narrow handler; unpacking
`None` raises `TypeError`; attribute access on `None` raises
`AttributeError`; `UFOProcessorError` is the explicit raise in
`generateUFO`. -/
inductive PyErr where
  | indexError
  | typeError
  | attributeError
  | ufoProcessorError
  | otherError
deriving DecidableEq, Repr

/-- Result of a Python call that can raise: the state is carried on both
paths, so side effects performed before a raise are kept. -/
inductive PyRes (α σ : Type) where
  | ok (a : α) (st : σ)
  | exn (e : PyErr) (st : σ)

/-- The slice of a loaded source font that the claimed code reads: the
foreground glyph set, the named layers, and the file path (used in the
`sourceInfo` dict).  Glyph objects are opaque (`G`). -/
structure SrcFont (G : Type) where
  glyphSet : String → Option G
  layers : String → Option (String → Option G)
  path : String

/-- The fields of a fontTools `SourceDescriptor` that the claimed code
reads. -/
structure SourceDescriptor where
  name : String
  location : Loc
  mutedGlyphNames : List String
  layerName : Option String
  copyInfo : Bool
  copyLib : Bool
  copyFeatures : Bool

/-- The `sourceInfo` dict built for each collected master
(line 399). -/
structure SourceInfo where
  source : String
  glyphName : String
  layerName : String
  location : Loc
  sourceName : String
deriving DecidableEq, Repr

/-- One entry of a per-glyph `masters` override (lines 564-578):
`font`, optional `glyphName` (defaulting to the glyph being built) and
`location`. -/
structure GlyphMasterRef where
  font : String
  glyphName : Option String
  location : Loc

/-- A per-glyph override from `instanceDescriptor.glyphs[glyphName]`
(lines 524-564); an absent key behaves as the all-default record
(`glyphData = {}`). -/
structure GlyphOverride where
  mute : Bool
  instanceLocation : Option Loc
  unicodes : Option (List Nat)
  note : Option String
  masters : List GlyphMasterRef

/-- `glyphData = {}`: every `.get` falls back. -/
def GlyphOverride.default : GlyphOverride :=
  { mute := false, instanceLocation := none, unicodes := none,
    note := none, masters := [] }

/-- The fields of a fontTools `InstanceDescriptor` that the claimed code
reads. -/
structure InstanceDescriptor where
  location : Loc
  familyName : Option String
  styleName : Option String
  postScriptFontName : Option String
  styleMapFamilyName : Option String
  styleMapStyleName : Option String
  kerning : Bool
  glyphs : List (String × GlyphOverride)
  path : Option String

/-- Interpolated font info assembled by `makeInstance`: the extracted
interpolation result, the five naming overrides, and the sources whose
`_copyFontInfo` copy-through ran (the enumerated verbatim-copied
attribute list itself is external font-object detail). -/
structure OutInfo (V : Type) where
  interpolated : Option V
  familyName : Option String
  styleName : Option String
  postScriptFontName : Option String
  styleMapFamilyName : Option String
  styleMapStyleName : Option String
  copiedFrom : List String

/-- A fresh `defcon` info object: nothing set. -/
def OutInfo.empty {V : Type} : OutInfo V :=
  { interpolated := none, familyName := none, styleName := none,
    postScriptFontName := none, styleMapFamilyName := none,
    styleMapStyleName := none, copiedFrom := [] }

/-- One glyph of the generated instance font.  `note` is never written by
any code path of `makeInstance` (see claim C9). -/
structure OutGlyph (V : Type) where
  geometry : Option V
  width : Option ℚ
  unicodes : List Nat
  note : Option String

/-- `font.newGlyph(name)` / `font[name].clear()`: an empty glyph. -/
def OutGlyph.empty {V : Type} : OutGlyph V :=
  { geometry := none, width := none, unicodes := [], note := none }

/-- The generated instance font, as far as `makeInstance` writes it. -/
structure OutFont (V : Type) where
  kerning : Option V
  info : OutInfo V
  glyphs : String → Option (OutGlyph V)
  libGlyphOrder : Option (List String)
  libDesignspace : Option Loc
  libCopiedFrom : List String
  featuresText : Option String

/-- `self._instantiateFont(None)`: an empty font. -/
def OutFont.empty {V : Type} : OutFont V :=
  { kerning := none, info := OutInfo.empty, glyphs := fun _ => none,
    libGlyphOrder := none, libDesignspace := none, libCopiedFrom := [],
    featuresText := none }

/-- The external collaborators consumed by the processor, as oracles:

* `decompose` — the `DecomposePointPen` flattening of a glyph over its
  layer's glyph set (point-pen drawing protocol, out of scope);
* `toMathGlyph` — fontMath conversion of a glyph object (covers both
  branches of the `hasattr(-, "toMathGlyph")` dispatch);
* `remath` — the second conversion applied inside `getGlyphMutator`
  (lines 344-349) to the already-converted items;
* `mathInfoOf` / `mathKerningOf` — `MathInfo(font)` /
  `MathKerning(font.kerning, font.groups)`;
* `buildModel` — `buildMutator` or `VariationModelMutator` behind the
  `try` of `getVariationModel`; `none` models the caught failure;
* `makeInst` — `mutator.makeInstance(loc)`, which may raise;
* `neutralGet` — `glyphMutator.get(())` followed by
  `neutral[0].unicodes`, `none` when no neutral entry exists;
* `vadd` / `vsmul` — fontMath addition and `(x, y) * mathObject`
  anisotropic scaling;
* `widthOf` — `glyphInstanceObject.width`;
* `roundV` — `glyphInstanceObject.round()`; `none` models the
  `AttributeError` that the code silences with `pass`;
* `featuresOf` — `font.features.text`;
* `applyRules` — the `processRules`/`swapGlyphNames` post-processing on
  the generated font (invoked only when rule processing is on);
* `findDefault` — `self.findDefault()` from fontTools designspaceLib. -/
structure Externals (G V Mut : Type) where
  decompose : (String → Option G) → G → G
  toMathGlyph : G → V
  remath : V → V
  mathInfoOf : SrcFont G → V
  mathKerningOf : SrcFont G → V
  buildModel : List (Loc × V) → Option Mut
  makeInst : Mut → Loc → Except PyErr V
  neutralGet : Mut → Option (List Nat)
  vadd : V → V → V
  vsmul : ℚ × ℚ → V → V
  widthOf : V → ℚ
  roundV : V → Option V
  featuresOf : SrcFont G → String
  applyRules : OutFont V → OutFont V
  findDefault : List SourceDescriptor → Option SourceDescriptor

/-- The processor state: the fields of `DesignSpaceProcessor` that the
claimed code paths use.  `fonts` maps a source name to `none` when the
source UFO was not found (`self.fonts[name] = None`, line 429). -/
structure PState (G V Mut : Type) where
  sources : List SourceDescriptor
  fonts : String → Option (SrcFont G)
  instances : List InstanceDescriptor
  glyphMutators : String × Bool → Option Mut
  infoMutator : Option Mut
  kerningMutator : Option Mut
  problems : List String
  glyphNames : List String
  defaultLoc : Loc
  default : Option SourceDescriptor
  roundGeometry : Bool

/-- Translation of `getVariationModel` (lines 298-311): both back ends
sit behind one `try`; on failure the traceback is appended to
`self.problems` and `None` is returned (the *caller* then crashes
unpacking it). -/
def getVariationModel (E : Externals G V Mut) (st : PState G V Mut)
    (items : List (Loc × V)) : Option Mut × PState G V Mut :=
  match E.buildModel items with
  | some m => (some m, st)
  | none =>
    (none, { st with problems :=
        st.problems ++ ["UFOProcessor.getVariationModel error"] })

/-- The loop body of `collectMastersForGlyph` (lines 362-404), one source
at a time.  `none` models the `TypeError` raised by `glyphName in f` when
the source font failed to load (`self.fonts[name]` is `None`); a skipped
source contributes nothing to the list. -/
def collectMastersAux (E : Externals G V Mut) (fonts : String → Option (SrcFont G))
    (glyphName : String) (decomposeComponents : Bool) :
    List SourceDescriptor → Option (List (Loc × V × SourceInfo))
  | [] => some []
  | sd :: rest =>
    let restItems := collectMastersAux E fonts glyphName decomposeComponents rest
    if glyphName ∈ sd.mutedGlyphNames then restItems
    else
      match fonts sd.name with
      | none => none
      | some f =>
        if (f.glyphSet glyphName).isNone then restItems
        else
          match sd.layerName with
          | none =>
            match f.glyphSet glyphName with
            | none => restItems
            | some g =>
              let processThis := if decomposeComponents then E.decompose f.glyphSet g else g
              let info : SourceInfo :=
                { source := f.path, glyphName := glyphName, layerName := "foreground",
                  location := sd.location, sourceName := sd.name }
              ((sd.location, E.toMathGlyph processThis, info) :: ·) <$> restItems
          | some ln =>
            match f.layers ln with
            | none =>
              -- named layer not present: `sourceLayer` stays the font itself
              match f.glyphSet glyphName with
              | none => restItems
              | some g =>
                let processThis := if decomposeComponents then E.decompose f.glyphSet g else g
                let info : SourceInfo :=
                  { source := f.path, glyphName := glyphName, layerName := "foreground",
                    location := sd.location, sourceName := sd.name }
                ((sd.location, E.toMathGlyph processThis, info) :: ·) <$> restItems
            | some layer =>
              match layer glyphName with
              | none => restItems  -- sparse layer: glyph not in layer, skipped
              | some g =>
                let processThis := if decomposeComponents then E.decompose layer g else g
                let info : SourceInfo :=
                  { source := f.path, glyphName := glyphName, layerName := ln,
                    location := sd.location, sourceName := sd.name }
                ((sd.location, E.toMathGlyph processThis, info) :: ·) <$> restItems

/-- Translation of `collectMastersForGlyph` (lines 354-405). -/
def collectMastersForGlyph (E : Externals G V Mut) (st : PState G V Mut)
    (glyphName : String) (decomposeComponents : Bool) :
    Option (List (Loc × V × SourceInfo)) :=
  collectMastersAux E st.fonts glyphName decomposeComponents st.sources

/-- Translation of `getGlyphMutator` (lines 338-352).  A cache hit with
`fromCache` returns the cached mutator with the state untouched; every
other case rebuilds.  When `getVariationModel` returns `None`, the
unpacking `bias, thing = ...` raises `TypeError` — after the problem
entry was appended. -/
def getGlyphMutator (E : Externals G V Mut) (st : PState G V Mut)
    (glyphName : String) (decomposeComponents : Bool) (fromCache : Bool) :
    PyRes Mut (PState G V Mut) :=
  let cacheKey := (glyphName, decomposeComponents)
  match st.glyphMutators cacheKey, fromCache with
  | some m, true => .ok m st
  | _, _ =>
    match collectMastersForGlyph E st glyphName decomposeComponents with
    | none => .exn .typeError st
    | some items =>
      let items2 := items.map fun it => (it.1, E.remath it.2.1)
      match getVariationModel E st items2 with
      | (some thing, st1) =>
        .ok thing { st1 with glyphMutators :=
          fun k => if k = cacheKey then some thing else st1.glyphMutators k }
      | (none, st1) => .exn .typeError st1

/-- The info items loop of `getInfoMutator` (lines 317-321); `none`
models the exception raised by `MathInfo(None)` on an unloaded source. -/
def infoItemsAux (E : Externals G V Mut) (fonts : String → Option (SrcFont G)) :
    List SourceDescriptor → Option (List (Loc × V))
  | [] => some []
  | sd :: rest =>
    match fonts sd.name with
    | none => none
    | some f =>
      ((sd.location, E.mathInfoOf f) :: ·) <$> infoItemsAux E fonts rest

/-- Translation of `getInfoMutator` (lines 313-323). -/
def getInfoMutator (E : Externals G V Mut) (st : PState G V Mut) :
    PyRes Mut (PState G V Mut) :=
  match st.infoMutator with
  | some m => .ok m st
  | none =>
    match infoItemsAux E st.fonts st.sources with
    | none => .exn .attributeError st
    | some items =>
      match getVariationModel E st items with
      | (some m, st1) => .ok m { st1 with infoMutator := some m }
      | (none, st1) => .exn .typeError st1

/-- The kerning items loop of `getKerningMutator` (lines 329-334). -/
def kerningItemsAux (E : Externals G V Mut) (fonts : String → Option (SrcFont G)) :
    List SourceDescriptor → Option (List (Loc × V))
  | [] => some []
  | sd :: rest =>
    match fonts sd.name with
    | none => none
    | some f =>
      ((sd.location, E.mathKerningOf f) :: ·) <$> kerningItemsAux E fonts rest

/-- Translation of `getKerningMutator` (lines 325-336). -/
def getKerningMutator (E : Externals G V Mut) (st : PState G V Mut) :
    PyRes Mut (PState G V Mut) :=
  match st.kerningMutator with
  | some m => .ok m st
  | none =>
    match kerningItemsAux E st.fonts st.sources with
    | none => .exn .attributeError st
    | some items =>
      match getVariationModel E st items with
      | (some m, st1) => .ok m { st1 with kerningMutator := some m }
      | (none, st1) => .exn .typeError st1

/-! ### `makeInstance` (lines 443-623), split into its source blocks -/

/-- The kerning block (lines 459-467): evaluated at the *horizontal*
location only; the bare `except:` catches any failure, appends a problem
entry and continues. -/
def kerningStep (E : Externals G V Mut) (inst : InstanceDescriptor)
    (locHorizontal : Loc) (st : PState G V Mut) (font : OutFont V) :
    PState G V Mut × OutFont V :=
  if inst.kerning then
    match getKerningMutator E st with
    | .exn _ st1 =>
      ({ st1 with problems := st1.problems ++ ["Could not make kerning for instance"] },
       font)
    | .ok kerningMutator st1 =>
      match E.makeInst kerningMutator locHorizontal with
      | .error _ =>
        ({ st1 with problems := st1.problems ++ ["Could not make kerning for instance"] },
         font)
      | .ok kerningObject => (st1, { font with kerning := some kerningObject })
  else (st, font)

/-- The info interpolation inside the info `try` (lines 470-477): plain
evaluation at an isotropic location, or the two-half evaluation merged
with weights `(1,0)` horizontal and `(0,1)` vertical (line 477). -/
def makeInfoValue (E : Externals G V Mut) (infoMutator : Mut)
    (loc locHorizontal locVertical : Loc) (anisotropic : Bool) :
    Except PyErr V :=
  if anisotropic then do
    let horizontalInfo ← E.makeInst infoMutator locHorizontal
    let verticalInfo ← E.makeInst infoMutator locVertical
    pure (E.vadd (E.vsmul (1, 0) horizontalInfo) (E.vsmul (0, 1) verticalInfo))
  else E.makeInst infoMutator loc

/-- The info block (lines 468-493): the whole sequence — mutator
acquisition, evaluation, `extractInfo` and the five naming overrides —
sits inside one `try`, so a failure anywhere before the naming lines
skips them; the bare `except:` appends a problem entry and continues. -/
def infoStep (E : Externals G V Mut) (inst : InstanceDescriptor)
    (loc locHorizontal locVertical : Loc) (anisotropic : Bool)
    (st : PState G V Mut) (font : OutFont V) : PState G V Mut × OutFont V :=
  match getInfoMutator E st with
  | .exn _ st1 =>
    ({ st1 with problems := st1.problems ++ ["Could not make fontinfo for instance"] },
     font)
  | .ok infoMutator st1 =>
    match makeInfoValue E infoMutator loc locHorizontal locVertical anisotropic with
    | .error _ =>
      ({ st1 with problems := st1.problems ++ ["Could not make fontinfo for instance"] },
       font)
    | .ok infoInstanceObject =>
      (st1,
       { font with info :=
          { font.info with
            interpolated := some infoInstanceObject,
            familyName := inst.familyName,
            styleName := inst.styleName,
            postScriptFontName := inst.postScriptFontName,
            styleMapFamilyName := inst.styleMapFamilyName,
            styleMapStyleName := inst.styleMapStyleName } })

/-- The copy-through loop (lines 494-507), one source at a time: the
`copyInfo`/`copyLib`/`copyFeatures` flags copy verbatim data from that
source's font; dereferencing an unloaded font raises (uncaught). -/
def copyFontSources (E : Externals G V Mut) (fonts : String → Option (SrcFont G)) :
    List SourceDescriptor → OutFont V → Except PyErr (OutFont V)
  | [], font => .ok font
  | sd :: rest, font =>
    if sd.copyInfo ∨ sd.copyLib ∨ sd.copyFeatures then
      match fonts sd.name with
      | none => .error .attributeError
      | some f =>
        let font1 := if sd.copyInfo then
            { font with info :=
              { font.info with copiedFrom := font.info.copiedFrom ++ [sd.name] } }
          else font
        let font2 := if sd.copyLib then
            { font1 with libCopiedFrom := font1.libCopiedFrom ++ [sd.name] }
          else font1
        let font3 := if sd.copyFeatures then
            { font2 with featuresText := some (E.featuresOf f) }
          else font2
        copyFontSources E fonts rest font3
    else copyFontSources E fonts rest font

/-- The private-masters loop (lines 566-578): builds the item list for a
per-glyph `masters` override; a master naming an unloaded or unknown
font raises `TypeError` (`sourceGlyphName in m` with `m = None`); a
master whose glyph is missing from its font is skipped. -/
def buildPrivateItems (E : Externals G V Mut) (fonts : String → Option (SrcFont G))
    (glyphName : String) : List GlyphMasterRef → Option (List (Loc × V))
  | [] => some []
  | gm :: rest =>
    match fonts gm.font with
    | none => none
    | some m =>
      let sourceGlyphName := gm.glyphName.getD glyphName
      match m.glyphSet sourceGlyphName with
      | none => buildPrivateItems E fonts glyphName rest
      | some g =>
        ((gm.location, E.toMathGlyph g) :: ·) <$> buildPrivateItems E fonts glyphName rest

/-- The glyph interpolation inside the per-glyph `try` (lines 580-589):
plain evaluation at an isotropic location, or the two-half evaluation
merged with weights `(0,1)` horizontal and `(1,0)` vertical (line 589) —
the reverse of the info weights. -/
def makeGlyphValue (E : Externals G V Mut) (glyphMutator : Mut)
    (glyphInstanceLocation : Loc) : Except PyErr V :=
  if isAnisotropic glyphInstanceLocation then do
    let horizontal ← E.makeInst glyphMutator (splitAnisotropic glyphInstanceLocation).1
    let vertical ← E.makeInst glyphMutator (splitAnisotropic glyphInstanceLocation).2
    pure (E.vadd (E.vsmul (0, 1) horizontal) (E.vsmul (1, 0) vertical))
  else E.makeInst glyphMutator glyphInstanceLocation

/-- The tail of the per-glyph body after the mutator has been resolved
(lines 580-610): interpolate (only `IndexError` is caught — by a `print`
and `continue`, with *no* problems entry), re-create the glyph, round if
requested (an `AttributeError` from `round()` is silenced), deposit the
geometry (`extractGlyph`, with the `drawPoints` fallback on `TypeError` —
both paths store the same outline), set width and unicodes. -/
def glyphStepFill (E : Externals G V Mut) (glyphName : String)
    (glyphMutator : Mut) (glyphInstanceLocation : Loc)
    (glyphInstanceUnicodes : List Nat) (st : PState G V Mut)
    (font : OutFont V) : PyRes Unit (PState G V Mut × OutFont V) :=
  match makeGlyphValue E glyphMutator glyphInstanceLocation with
  | .error .indexError => .ok () (st, font)
  | .error e => .exn e (st, font)
  | .ok glyphInstanceObject =>
    let rounded :=
      if st.roundGeometry then (E.roundV glyphInstanceObject).getD glyphInstanceObject
      else glyphInstanceObject
    let newGlyph : OutGlyph V :=
      { geometry := some rounded, width := some (E.widthOf rounded),
        unicodes := glyphInstanceUnicodes, note := none }
    .ok () (st,
      { font with glyphs := fun n =>
          if n = glyphName then some newGlyph else font.glyphs n })

/-- One iteration of the glyph loop (lines 516-610).  The mutator `try`
(lines 517-523) catches any failure, appends a problem entry and skips
the glyph entirely; after that the glyph is created empty, a `mute`
override leaves it empty; the `note` override executes
`font[glyphName] = note`, an item assignment that defcon fonts do not
support — `TypeError`, uncaught (see C9); a nonempty `masters` override
replaces the mutator with a privately built one. -/
def glyphStep (E : Externals G V Mut) (inst : InstanceDescriptor)
    (st : PState G V Mut) (font : OutFont V) (glyphName : String) :
    PyRes Unit (PState G V Mut × OutFont V) :=
  match getGlyphMutator E st glyphName false true with
  | .exn _ st1 =>
    .ok () ({ st1 with problems :=
        st1.problems ++ ["Could not make mutator for glyph " ++ glyphName] },
      font)
  | .ok glyphMutator st1 =>
    let glyphData :=
      ((inst.glyphs.find? fun p => p.1 = glyphName).map Prod.snd).getD
        GlyphOverride.default
    let font1 := { font with glyphs := fun n =>
        if n = glyphName then some OutGlyph.empty else font.glyphs n }
    if glyphData.mute then .ok () (st1, font1)
    else
      let glyphInstanceLocation := glyphData.instanceLocation.getD inst.location
      let uniValues := (E.neutralGet glyphMutator).getD []
      let glyphInstanceUnicodes := glyphData.unicodes.getD uniValues
      let noteBlocked : Bool :=
        match glyphData.note with
        | some noteText => noteText ≠ ""
        | none => false
      if noteBlocked then .exn .typeError (st1, font1)
      else
        if glyphData.masters.isEmpty then
          glyphStepFill E glyphName glyphMutator glyphInstanceLocation
            glyphInstanceUnicodes st1 font1
        else
          match buildPrivateItems E st1.fonts glyphName glyphData.masters with
          | none => .exn .typeError (st1, font1)
          | some items =>
            match getVariationModel E st1 items with
            | (some privateMutator, st2) =>
              glyphStepFill E glyphName privateMutator glyphInstanceLocation
                glyphInstanceUnicodes st2 font1
            | (none, st2) => .exn .typeError (st2, font1)

/-- The glyph loop over the selected glyph names (lines 516-610). -/
def glyphLoop (E : Externals G V Mut) (inst : InstanceDescriptor) :
    PState G V Mut × OutFont V → List String →
    PyRes Unit (PState G V Mut × OutFont V)
  | stf, [] => .ok () stf
  | (st, font), glyphName :: rest =>
    match glyphStep E inst st font glyphName with
    | .exn e stf => .exn e stf
    | .ok () (st1, font1) => glyphLoop E inst (st1, font1) rest

/-- Translation of `makeInstance` (lines 443-623).  The version with an
anisotropic instance location splits it once and reuses the two halves;
`self.default` must be resolvable (the rename-map copy dereferences it);
the `processRules` post-processing and the on-disk font object plumbing
are external (`E.applyRules`). -/
def makeInstance (E : Externals G V Mut) (st : PState G V Mut)
    (inst : InstanceDescriptor) (doRules : Bool)
    (glyphNames : Option (List String)) : PyRes (OutFont V) (PState G V Mut) :=
  let loc := inst.location
  let anisotropic := isAnisotropic loc
  let locHorizontal := if anisotropic then (splitAnisotropic loc).1 else loc
  let locVertical := if anisotropic then (splitAnisotropic loc).2 else loc
  match st.default with
  | none => .exn .attributeError st
  | some _ =>
    let (st1, font1) := kerningStep E inst locHorizontal st OutFont.empty
    let (st2, font2) :=
      infoStep E inst loc locHorizontal locVertical anisotropic st1 font1
    match copyFontSources E st2.fonts st2.sources font2 with
    | .error e => .exn e st2
    | .ok font3 =>
      let selectedGlyphNames := glyphNames.getD st2.glyphNames
      let font4 :=
        if font3.libGlyphOrder.isNone then
          { font3 with libGlyphOrder := some selectedGlyphNames }
        else font3
      match glyphLoop E inst (st2, font4) selectedGlyphNames with
      | .exn e (st3, _) => .exn e st3
      | .ok () (st3, font5) =>
        let font6 := if doRules then E.applyRules font5 else font5
        .ok { font6 with libDesignspace := some inst.location } st3

/-- The instance loop of `generateUFO` (lines 269-283): instances with
no path are skipped; a successful `makeInstance` is followed by the save
(external I/O) and a `Generated ...` problems entry; exceptions escaping
`makeInstance` abort the loop. -/
def generateLoop (E : Externals G V Mut) (processRulesFlag : Bool) :
    PState G V Mut → List InstanceDescriptor → PyRes Bool (PState G V Mut)
  | st, [] => .ok true st
  | st, inst :: rest =>
    match inst.path with
    | none => generateLoop E processRulesFlag st rest
    | some p =>
      match makeInstance E st inst processRulesFlag none with
      | .exn e st1 => .exn e st1
      | .ok _ st1 =>
        generateLoop E processRulesFlag
          { st1 with problems := st1.problems ++ ["Generated " ++ p] } rest

/-- Translation of `generateUFO` (lines 259-284): fonts are loaded (the
registry sits in the state), `findDefault` resolves the default source,
and a missing default raises `UFOProcessorError` before any instance is
attempted. -/
def generateUFO (E : Externals G V Mut) (st : PState G V Mut)
    (processRulesFlag : Bool) : PyRes Bool (PState G V Mut) :=
  let st1 := { st with default := E.findDefault st.sources }
  match st1.default with
  | none => .exn .ufoProcessorError st1
  | some _ => generateLoop E processRulesFlag st1 st1.instances

/-! Concrete oracles and states for witnesses. -/

/-- A concrete `Externals` instantiation: values are rationals, glyph
objects and mutators are trivial, evaluation returns the sum of the
requested location's scalar values. -/
def demoE : Externals Unit ℚ Unit :=
  { decompose := fun _ g => g
    toMathGlyph := fun _ => 0
    remath := fun v => v
    mathInfoOf := fun _ => 0
    mathKerningOf := fun _ => 0
    buildModel := fun _ => some ()
    makeInst := fun _ l => .ok (if isAnisotropic l then 250 else 150)
    neutralGet := fun _ => some [65]
    vadd := fun a b => a + b
    vsmul := fun w x => w.1 * x
    widthOf := fun v => v
    roundV := fun v => some v
    featuresOf := fun _ => ""
    applyRules := fun f => f
    findDefault := fun l => l.head? }

/-- A concrete processor state for cache witnesses: no sources, one
pre-cached mutator under `("a", false)`. -/
def demoStateCached : PState Unit ℚ Unit :=
  { sources := [], fonts := fun _ => none, instances := [],
    glyphMutators := fun k => if k = ("a", false) then some () else none,
    infoMutator := none, kerningMutator := none, problems := [],
    glyphNames := [], defaultLoc := [], default := none,
    roundGeometry := false }

/-- `demoStateCached` after a forced rebuild of the `("a", false)`
entry. -/
def demoStateRebuilt : PState Unit ℚ Unit :=
  { demoStateCached with glyphMutators :=
      fun k => if k = ("a", false) then some ()
        else demoStateCached.glyphMutators k }

/-! ### Claim C7: excluded sources contribute nothing -/

/-- The contribution of a single source to a glyph's master list: `none`
when the source is excluded (glyph muted for the source, absent from the
source font, or absent from an existing named layer), otherwise exactly
one item. -/
def sourceContribution (E : Externals G V Mut) (fonts : String → Option (SrcFont G))
    (glyphName : String) (decomposeComponents : Bool) (sd : SourceDescriptor) :
    Option (Loc × V × SourceInfo) :=
  if glyphName ∈ sd.mutedGlyphNames then none
  else
    match fonts sd.name with
    | none => none
    | some f =>
      if (f.glyphSet glyphName).isNone then none
      else
        match sd.layerName with
        | none =>
          (f.glyphSet glyphName).map fun g =>
            (sd.location,
             E.toMathGlyph (if decomposeComponents then E.decompose f.glyphSet g else g),
             SourceInfo.mk f.path glyphName "foreground" sd.location sd.name)
        | some ln =>
          match f.layers ln with
          | none =>
            (f.glyphSet glyphName).map fun g =>
              (sd.location,
               E.toMathGlyph (if decomposeComponents then E.decompose f.glyphSet g else g),
               SourceInfo.mk f.path glyphName "foreground" sd.location sd.name)
          | some layer =>
            (layer glyphName).map fun g =>
              (sd.location,
               E.toMathGlyph (if decomposeComponents then E.decompose layer g else g),
               SourceInfo.mk f.path glyphName ln sd.location sd.name)

/-- A source font whose foreground has glyph `a` and no layers. -/
def srcFontPlain : SrcFont Unit :=
  { glyphSet := fun n => if n = "a" then some () else none,
    layers := fun _ => none, path := "plain.ufo" }

/-- A source font with no glyphs at all. -/
def srcFontEmpty : SrcFont Unit :=
  { glyphSet := fun _ => none, layers := fun _ => none, path := "empty.ufo" }

/-- A source font whose foreground has `a` but whose layer `L` does not
(a sparse support layer). -/
def srcFontSparse : SrcFont Unit :=
  { glyphSet := fun n => if n = "a" then some () else none,
    layers := fun ln => if ln = "L" then some (fun _ => none) else none,
    path := "sparse.ufo" }

/-- Four sources: one muting `a`, one whose font lacks `a`, one whose
named layer lacks `a`, and one included. -/
def demoSources : List SourceDescriptor :=
  [{ name := "muted", location := [], mutedGlyphNames := ["a"],
     layerName := none, copyInfo := false, copyLib := false, copyFeatures := false },
   { name := "absent", location := [], mutedGlyphNames := [],
     layerName := none, copyInfo := false, copyLib := false, copyFeatures := false },
   { name := "sparse", location := [], mutedGlyphNames := [],
     layerName := some "L", copyInfo := false, copyLib := false, copyFeatures := false },
   { name := "included", location := [], mutedGlyphNames := [],
     layerName := none, copyInfo := false, copyLib := false, copyFeatures := false }]

/-- The loaded-font registry for `demoSources`. -/
def demoFonts : String → Option (SrcFont Unit) := fun n =>
  if n = "muted" then some srcFontPlain
  else if n = "absent" then some srcFontEmpty
  else if n = "sparse" then some srcFontSparse
  else if n = "included" then some srcFontPlain
  else none

/-- A processor state over `demoSources`. -/
def demoCollectState : PState Unit ℚ Unit :=
  { sources := demoSources, fonts := demoFonts, instances := [],
    glyphMutators := fun _ => none, infoMutator := none,
    kerningMutator := none, problems := [], glyphNames := ["a"],
    defaultLoc := [], default := none, roundGeometry := false }

/-- Oracles whose mutator evaluation always fails. -/
def failE : Externals Unit ℚ Unit :=
  { demoE with makeInst := fun _ _ => .error .otherError }

/-- A default source used only to satisfy the rename-map dereference. -/
def demoSourceDefault : SourceDescriptor :=
  { name := "default", location := [], mutedGlyphNames := [],
    layerName := none, copyInfo := false, copyLib := false,
    copyFeatures := false }

/-- State for the C8 counterexample: info mutator cached, no sources, no
glyphs. -/
def c8State : PState Unit ℚ Unit :=
  { sources := [], fonts := fun _ => none, instances := [],
    glyphMutators := fun _ => none, infoMutator := some (),
    kerningMutator := none, problems := [], glyphNames := [],
    defaultLoc := [], default := some demoSourceDefault,
    roundGeometry := false }

/-- An instance with naming overrides set. -/
def c8Inst : InstanceDescriptor :=
  { location := [], familyName := some "Override", styleName := some "Style",
    postScriptFontName := none, styleMapFamilyName := none,
    styleMapStyleName := none, kerning := false, glyphs := [], path := none }

/-- The font that `makeInstance` produces for the C8 counterexample. -/
def c8ExpectedFont : OutFont ℚ :=
  { OutFont.empty with libGlyphOrder := some [], libDesignspace := some [] }

/-- A font with one freshly created empty glyph, as left behind by a
skipped glyph iteration. -/
def withEmptyGlyph {V : Type} (gn : String) (font : OutFont V) : OutFont V :=
  { font with glyphs := fun n =>
      if n = gn then some OutGlyph.empty else font.glyphs n }

/-- An instance with a `note` override for glyph `a` — the failing
input of the note bug. -/
def noteInst : InstanceDescriptor :=
  { location := [], familyName := none, styleName := none,
    postScriptFontName := none, styleMapFamilyName := none,
    styleMapStyleName := none, kerning := false,
    glyphs := [("a",
      { mute := false, instanceLocation := none, unicodes := some [97],
        note := some "hello", masters := [] })],
    path := none }

/-- Oracles whose mutator evaluation always raises `IndexError`. -/
def idxE : Externals Unit ℚ Unit :=
  { demoE with makeInst := fun _ _ => .error .indexError }

/-- A plain instance with no overrides. -/
def plainInst : InstanceDescriptor :=
  { location := [], familyName := none, styleName := none,
    postScriptFontName := none, styleMapFamilyName := none,
    styleMapStyleName := none, kerning := false, glyphs := [], path := none }

/-- A state with no sources and no cached mutators, for the no-default
witness. -/
def noDefaultState : PState Unit ℚ Unit :=
  { sources := [], fonts := fun _ => none, instances := [],
    glyphMutators := fun _ => none, infoMutator := none,
    kerningMutator := none, problems := [], glyphNames := [],
    defaultLoc := [], default := none, roundGeometry := false }

/-- Oracles that never find a default source. -/
def noDefaultE : Externals Unit ℚ Unit :=
  { demoE with findDefault := fun _ => none }

/-! ## Theorems -/

@[simp] theorem glyphs_newGlyph (f : Font C T) (a n : String) :
    (f.newGlyph a).glyphs n = if n = a then some GlyphData.empty else f.glyphs n := rfl

@[simp] theorem glyphs_modifyGlyph (f : Font C T) (a : String)
    (fn : GlyphData C T → GlyphData C T) (n : String) :
    (f.modifyGlyph a fn).glyphs n = if n = a then (f.glyphs n).map fn else f.glyphs n := rfl

@[simp] theorem kerning_newGlyph (f : Font C T) (a : String) :
    (f.newGlyph a).kerning = f.kerning := rfl

@[simp] theorem kerning_modifyGlyph (f : Font C T) (a : String)
    (fn : GlyphData C T → GlyphData C T) :
    (f.modifyGlyph a fn).kerning = f.kerning := rfl

@[simp] theorem groups_newGlyph (f : Font C T) (a : String) :
    (f.newGlyph a).groups = f.groups := rfl

@[simp] theorem groups_modifyGlyph (f : Font C T) (a : String)
    (fn : GlyphData C T → GlyphData C T) :
    (f.modifyGlyph a fn).groups = f.groups := rfl

@[simp] theorem kerning_remapComponents (f : Font C T) (a b : String) :
    (f.remapComponents a b).kerning = f.kerning := rfl

@[simp] theorem groups_remapComponents (f : Font C T) (a b : String) :
    (f.remapComponents a b).groups = f.groups := rfl

@[simp] theorem glyphs_remapComponents (f : Font C T) (a b n : String) :
    (f.remapComponents a b).glyphs n =
      (f.glyphs n).map fun g =>
        { g with components := g.components.map (remapOne a b) } := rfl

theorem copyOutlineAppend_eq (f : Font C T) (src dst : String) :
    f.copyOutlineAppend src dst =
      f.modifyGlyph dst fun g =>
        { g with contours := g.contours ++ (f.get src).contours,
                 components := g.components ++ (f.get src).components } := rfl

theorem setWidthFrom_eq (f : Font C T) (src dst : String) :
    f.setWidthFrom src dst =
      f.modifyGlyph dst fun g => { g with width := (f.get src).width } := rfl

/-- `swapNameSubst old new` is an involution on names. -/
theorem swapNameSubst_involutive (old new n : String) :
    swapNameSubst old new (swapNameSubst old new n) = n := by
  unfold swapNameSubst
  by_cases h1 : n = old
  · by_cases h2 : new = old <;> simp [h1, h2]
  · by_cases h2 : n = new <;> simp [h1, h2]

/-- `Component.swapBase old new` is an involution on components. -/
theorem swapBase_involutive {T : Type} (old new : String) (c : Component T) :
    Component.swapBase old new (Component.swapBase old new c) = c := by
  simp [Component.swapBase, swapNameSubst_involutive]

/-- The parking name carries the swap extension. -/
theorem nameHasSwapExtension_park (old : String) :
    nameHasSwapExtension (old ++ swapNameExtension) = true := by
  have hdata : (old ++ swapNameExtension).toList
      = old.toList ++ swapNameExtension.toList := rfl
  have h : swapNameExtension.toList <:+: (old ++ swapNameExtension).toList := by
    rw [hdata]; exact (List.suffix_append _ _).isInfix
  simpa [nameHasSwapExtension] using h

/-- The three sequential remap passes `old → park`, `new → old`,
`park → new` act on a component whose base is not the parking name as the
simultaneous `old ↔ new` exchange. -/
theorem three_pass_eq_swapBase {T : Type} (old new park : String)
    (hpo : park ≠ old) (hpn : park ≠ new) (c : Component T)
    (hc : c.baseGlyph ≠ park) :
    remapOne park new (remapOne new old (remapOne old park c)) =
      Component.swapBase old new c := by
  unfold remapOne Component.swapBase swapNameSubst
  by_cases h1 : c.baseGlyph = old
  · simp [h1, hpn]
  · by_cases h2 : c.baseGlyph = new
    · have hno : new ≠ old := fun h => h1 (h2.trans h)
      simp [h1, h2, hno, Ne.symm hpo]
    · simp [h1, h2, hc]

/-- On a font with both names present and distinct, no glyph name
carrying the swap extension, and no component reference to the parking
name, `swapGlyphNames` produces exactly `swapOutcome`. -/
theorem swapGlyphNames_eq_outcome (f : Font C T) (old new : String)
    (hold : f.mem old = true) (hnew : f.mem new = true) (hne : old ≠ new)
    (hext : ∀ n, nameHasSwapExtension n = true → f.glyphs n = none)
    (hpark : ∀ n g, f.glyphs n = some g → ∀ c ∈ g.components,
      c.baseGlyph ≠ old ++ swapNameExtension) :
    swapGlyphNames f old new = swapOutcome f old new := by
  set park := old ++ swapNameExtension with hparkdef
  have hparkNone : f.glyphs park = none := hext _ (nameHasSwapExtension_park old)
  have hop : old ≠ park := by
    intro h
    rw [Font.mem, h, hparkNone] at hold
    simp at hold
  have hnp : new ≠ park := by
    intro h
    rw [Font.mem, h, hparkNone] at hnew
    simp at hnew
  have hexto : nameHasSwapExtension old = false := by
    cases hx : nameHasSwapExtension old
    · rfl
    · rw [Font.mem, hext _ hx] at hold; simp at hold
  have hextn : nameHasSwapExtension new = false := by
    cases hx : nameHasSwapExtension new
    · rfl
    · rw [Font.mem, hext _ hx] at hnew; simp at hnew
  have hmemp : f.mem park = false := by simp [Font.mem, hparkNone]
  obtain ⟨gOld, hgOld⟩ : ∃ g, f.glyphs old = some g := by
    rw [Font.mem, Option.isSome_iff_exists] at hold; exact hold
  obtain ⟨gNew, hgNew⟩ : ∃ g, f.glyphs new = some g := by
    rw [Font.mem, Option.isSome_iff_exists] at hnew; exact hnew
  have hcomp : ∀ gl : GlyphData C T, (∀ c ∈ gl.components, c.baseGlyph ≠ park) →
      gl.components.map (remapOne park new ∘ remapOne new old ∘ remapOne old park)
        = gl.components.map (Component.swapBase old new) := by
    intro gl hgl
    refine List.map_congr_left fun c hc => ?_
    exact three_pass_eq_swapBase old new park (Ne.symm hop) (Ne.symm hnp) c (hgl c hc)
  unfold swapGlyphNames
  rw [if_neg (by simp [hold, hnew])]
  simp only [hmemp, Bool.false_eq_true, if_false]
  refine Font.ext ?_ ?_ ?_
  · funext n
    by_cases hn : nameHasSwapExtension n = true
    · have hnone : f.glyphs n = none := hext _ hn
      simp [swapOutcome, hn]
    · replace hn : nameHasSwapExtension n = false := by
        cases hx : nameHasSwapExtension n
        · rfl
        · exact absurd hx hn
      have hnpark : n ≠ park := by
        intro h; rw [h, nameHasSwapExtension_park] at hn; cases hn
      by_cases ho : n = old
      · subst ho
        simp only [swapOutcome, copyOutlineAppend_eq, setWidthFrom_eq,
          glyphs_modifyGlyph, glyphs_newGlyph, glyphs_remapComponents,
          Font.get]
        simp only [hop, hnp, hne, Ne.symm hop, Ne.symm hnp, Ne.symm hne,
          hgOld, hgNew, hparkNone, hn, Bool.false_eq_true, if_false,
          if_true, eq_self_iff_true, Option.map_some, Option.getD_some,
          GlyphData.clear, List.nil_append]
        simp [GlyphData.clear, hcomp gNew (hpark new gNew hgNew)]
      · by_cases hw : n = new
        · subst hw
          simp only [swapOutcome, copyOutlineAppend_eq, setWidthFrom_eq,
            glyphs_modifyGlyph, glyphs_newGlyph, glyphs_remapComponents,
            Font.get]
          simp only [hop, hnp, ho, Ne.symm hop, Ne.symm hnp, Ne.symm hne,
            hnpark, hgOld, hgNew, hparkNone, hn, Bool.false_eq_true,
            if_false, if_true, eq_self_iff_true, Option.map_some,
            Option.getD_some, GlyphData.clear, GlyphData.empty,
            List.nil_append]
          simp [GlyphData.clear, hcomp gOld (hpark old gOld hgOld)]
        · simp only [swapOutcome, copyOutlineAppend_eq, setWidthFrom_eq,
            glyphs_modifyGlyph, glyphs_newGlyph, glyphs_remapComponents,
            Font.get]
          simp only [hnpark, ho, hw, hn, Bool.false_eq_true, if_false]
          cases hg : f.glyphs n with
          | none => simp
          | some g =>
            simp [hg, GlyphData.clear, hcomp g (hpark n g hg)]
  · simp [swapOutcome, Font.copyOutlineAppend, Font.setWidthFrom]
  · simp [swapOutcome, Font.copyOutlineAppend, Font.setWidthFrom]

/-- `swapNameSubst old old` is the identity. -/
theorem swapNameSubst_self (old n : String) : swapNameSubst old old n = n := by
  unfold swapNameSubst
  by_cases h : n = old <;> simp [h]

/-- Swapping a glyph with itself leaves the font unchanged (under the
same side conditions as the characterization). -/
theorem swapGlyphNames_self (f : Font C T) (old : String)
    (hold : f.mem old = true)
    (hext : ∀ n, nameHasSwapExtension n = true → f.glyphs n = none)
    (hpark : ∀ n g, f.glyphs n = some g → ∀ c ∈ g.components,
      c.baseGlyph ≠ old ++ swapNameExtension) :
    swapGlyphNames f old old = f := by
  set park := old ++ swapNameExtension with hparkdef
  have hparkNone : f.glyphs park = none := hext _ (nameHasSwapExtension_park old)
  have hop : old ≠ park := by
    intro h
    rw [Font.mem, h, hparkNone] at hold
    simp at hold
  have hmemp : f.mem park = false := by simp [Font.mem, hparkNone]
  obtain ⟨gOld, hgOld⟩ : ∃ g, f.glyphs old = some g := by
    rw [Font.mem, Option.isSome_iff_exists] at hold; exact hold
  have hcompSelf : ∀ gl : GlyphData C T, (∀ c ∈ gl.components, c.baseGlyph ≠ park) →
      gl.components.map (remapOne park old ∘ remapOne old old ∘ remapOne old park)
        = gl.components := by
    intro gl hgl
    have hid : ∀ c ∈ gl.components,
        (remapOne park old ∘ remapOne old old ∘ remapOne old park) c = c := by
      intro c hc
      obtain ⟨b, t⟩ := c
      have hb : (Component.mk b t : Component T).baseGlyph = b := rfl
      by_cases h1 : b = old
      · subst h1
        simp [remapOne, Ne.symm hop]
      · simp [remapOne, h1, hgl ⟨b, t⟩ hc]
    calc gl.components.map (remapOne park old ∘ remapOne old old ∘ remapOne old park)
        = gl.components.map id := List.map_congr_left hid
      _ = gl.components := List.map_id _
  unfold swapGlyphNames
  rw [if_neg (by simp [hold])]
  simp only [hmemp, Bool.false_eq_true, if_false]
  refine Font.ext ?_ ?_ ?_
  · funext n
    by_cases hn : nameHasSwapExtension n = true
    · simp [hext _ hn, hn]
    · replace hn : nameHasSwapExtension n = false := by
        cases hx : nameHasSwapExtension n
        · rfl
        · exact absurd hx hn
      have hnpark : n ≠ park := by
        intro h; rw [h, nameHasSwapExtension_park] at hn; cases hn
      by_cases ho : n = old
      · subst ho
        simp only [Font.copyOutlineAppend, Font.setWidthFrom,
          glyphs_modifyGlyph, glyphs_newGlyph, glyphs_remapComponents,
          Font.get]
        simp only [hop, Ne.symm hop, hgOld, hparkNone, hn,
          Bool.false_eq_true, if_false, if_true, eq_self_iff_true,
          Option.map_some, Option.getD_some, GlyphData.clear,
          GlyphData.empty, List.nil_append]
        simp [GlyphData.clear, GlyphData.empty,
          hcompSelf gOld (hpark _ gOld hgOld)]
      · simp only [Font.copyOutlineAppend, Font.setWidthFrom,
          glyphs_modifyGlyph, glyphs_newGlyph, glyphs_remapComponents,
          Font.get]
        simp only [hnpark, ho, hn, Bool.false_eq_true, if_false]
        cases hg : f.glyphs n with
        | none => simp
        | some g =>
          simp [hg, GlyphData.clear, hcompSelf g (hpark n g hg)]
  · simp only [Font.copyOutlineAppend, Font.setWidthFrom,
      kerning_modifyGlyph, kerning_newGlyph]
    have : ∀ e : (String × String) × ℚ,
        ((swapNameSubst old old e.1.1, swapNameSubst old old e.1.2), e.2) = e := by
      intro e; simp [swapNameSubst_self]
    calc f.kerning.map (fun e =>
            ((swapNameSubst old old e.1.1, swapNameSubst old old e.1.2), e.2))
        = f.kerning.map id := List.map_congr_left fun e _ => this e
      _ = f.kerning := List.map_id _
  · simp only [Font.copyOutlineAppend, Font.setWidthFrom,
      groups_modifyGlyph, groups_newGlyph]
    have : ∀ gr : String × List String,
        (gr.1, gr.2.map (swapNameSubst old old)) = gr := by
      intro gr
      have : gr.2.map (swapNameSubst old old) = gr.2 := by
        calc gr.2.map (swapNameSubst old old)
            = gr.2.map id := List.map_congr_left fun a _ => swapNameSubst_self old a
          _ = gr.2 := List.map_id _
      simp [this]
    calc f.groups.map (fun gr => (gr.1, gr.2.map (swapNameSubst old old)))
        = f.groups.map id := List.map_congr_left fun gr _ => this gr
      _ = f.groups := List.map_id _

/-- Mapping `Component.swapBase old new` twice is the identity on
component lists. -/
theorem map_swapBase_involutive {T' : Type} (old new : String)
    (l : List (Component T')) :
    l.map (Component.swapBase old new ∘ Component.swapBase old new) = l := by
  calc l.map (Component.swapBase old new ∘ Component.swapBase old new)
      = l.map id := List.map_congr_left fun c _ => swapBase_involutive old new c
    _ = l := List.map_id _

/-- `swapOutcome` is an involution on fonts satisfying the side
conditions. -/
theorem swapOutcome_involutive (f : Font C T) (old new : String)
    (hold : f.mem old = true) (hnew : f.mem new = true) (hne : old ≠ new)
    (hext : ∀ n, nameHasSwapExtension n = true → f.glyphs n = none) :
    swapOutcome (swapOutcome f old new) old new = f := by
  have hexto : nameHasSwapExtension old = false := by
    cases hx : nameHasSwapExtension old
    · rfl
    · rw [Font.mem, hext _ hx] at hold; simp at hold
  have hextn : nameHasSwapExtension new = false := by
    cases hx : nameHasSwapExtension new
    · rfl
    · rw [Font.mem, hext _ hx] at hnew; simp at hnew
  obtain ⟨gOld, hgOld⟩ : ∃ g, f.glyphs old = some g := by
    rw [Font.mem, Option.isSome_iff_exists] at hold; exact hold
  obtain ⟨gNew, hgNew⟩ : ∃ g, f.glyphs new = some g := by
    rw [Font.mem, Option.isSome_iff_exists] at hnew; exact hnew
  refine Font.ext ?_ ?_ ?_
  · funext n
    by_cases hn : nameHasSwapExtension n = true
    · simp [swapOutcome, hn, hext _ hn]
    · replace hn : nameHasSwapExtension n = false := by
        cases hx : nameHasSwapExtension n
        · rfl
        · exact absurd hx hn
      by_cases ho : n = old
      · subst ho
        simp [swapOutcome, hn, hexto, hextn, hgOld, hgNew, Font.get,
          hne, Ne.symm hne, map_swapBase_involutive]
      · by_cases hw : n = new
        · subst hw
          simp [swapOutcome, hn, hexto, hextn, ho, hgOld, hgNew, Font.get,
            hne, Ne.symm hne, map_swapBase_involutive]
        · cases hg : f.glyphs n with
          | none => simp [swapOutcome, hn, ho, hw, hg]
          | some g =>
            simp [swapOutcome, hn, ho, hw, hg, map_swapBase_involutive]
  · show (f.kerning.map _).map _ = f.kerning
    rw [List.map_map]
    have : ∀ e : (String × String) × ℚ,
        ((fun e : (String × String) × ℚ =>
            ((swapNameSubst old new e.1.1, swapNameSubst old new e.1.2), e.2)) ∘
          (fun e : (String × String) × ℚ =>
            ((swapNameSubst old new e.1.1, swapNameSubst old new e.1.2), e.2))) e = e := by
      intro e
      simp [Function.comp, swapNameSubst_involutive]
    calc f.kerning.map _ = f.kerning.map id := List.map_congr_left fun e _ => this e
      _ = f.kerning := List.map_id _
  · show (f.groups.map _).map _ = f.groups
    rw [List.map_map]
    have : ∀ gr : String × List String,
        ((fun gr : String × List String =>
            (gr.1, gr.2.map (swapNameSubst old new))) ∘
          (fun gr : String × List String =>
            (gr.1, gr.2.map (swapNameSubst old new)))) gr = gr := by
      intro gr
      have h2 : (gr.2.map (swapNameSubst old new)).map (swapNameSubst old new) = gr.2 := by
        rw [List.map_map]
        calc gr.2.map (swapNameSubst old new ∘ swapNameSubst old new)
            = gr.2.map id :=
              List.map_congr_left fun a _ => swapNameSubst_involutive old new a
          _ = gr.2 := List.map_id _
      simp [Function.comp, h2]
    calc f.groups.map _ = f.groups.map id := List.map_congr_left fun gr _ => this gr
      _ = f.groups := List.map_id _

/-- `swapOutcome` preserves the side conditions needed to characterize a
second swap. -/
theorem swapOutcome_preserves (f : Font C T) (old new : String)
    (hold : f.mem old = true) (hnew : f.mem new = true)
    (hext : ∀ n, nameHasSwapExtension n = true → f.glyphs n = none)
    (hpark : ∀ n g, f.glyphs n = some g → ∀ c ∈ g.components,
      c.baseGlyph ≠ old ++ swapNameExtension) :
    (swapOutcome f old new).mem old = true ∧
    (swapOutcome f old new).mem new = true ∧
    (∀ n, nameHasSwapExtension n = true → (swapOutcome f old new).glyphs n = none) ∧
    (∀ n g, (swapOutcome f old new).glyphs n = some g → ∀ c ∈ g.components,
      c.baseGlyph ≠ old ++ swapNameExtension) := by
  have hexto : nameHasSwapExtension old = false := by
    cases hx : nameHasSwapExtension old
    · rfl
    · rw [Font.mem, hext _ hx] at hold; simp at hold
  have hextn : nameHasSwapExtension new = false := by
    cases hx : nameHasSwapExtension new
    · rfl
    · rw [Font.mem, hext _ hx] at hnew; simp at hnew
  obtain ⟨gOld, hgOld⟩ : ∃ g, f.glyphs old = some g := by
    rw [Font.mem, Option.isSome_iff_exists] at hold; exact hold
  obtain ⟨gNew, hgNew⟩ : ∃ g, f.glyphs new = some g := by
    rw [Font.mem, Option.isSome_iff_exists] at hnew; exact hnew
  have hop : old ≠ old ++ swapNameExtension := by
    intro h
    rw [Font.mem, h, hext _ (nameHasSwapExtension_park old)] at hold
    simp at hold
  have hnp : new ≠ old ++ swapNameExtension := by
    intro h
    rw [Font.mem, h, hext _ (nameHasSwapExtension_park old)] at hnew
    simp at hnew
  have hsubst : ∀ b : String, b ≠ old ++ swapNameExtension →
      swapNameSubst old new b ≠ old ++ swapNameExtension := by
    intro b hb
    unfold swapNameSubst
    by_cases h1 : b = old
    · simp [h1, hnp]
    · by_cases h2 : b = new
      · by_cases h3 : new = old <;> simp [h1, h2, h3, hop, hnp]
      · simp [h1, h2, hb]
  refine ⟨?_, ?_, ?_, ?_⟩
  · simp [swapOutcome, Font.mem, hexto, hgOld]
  · by_cases hw : new = old
    · simp [swapOutcome, Font.mem, hexto, hextn, hw, hgOld]
    · simp [swapOutcome, Font.mem, hextn, hw, hgNew]
  · intro n hn
    simp [swapOutcome, hn]
  · intro n g hg c hc
    by_cases hn : nameHasSwapExtension n = true
    · simp [swapOutcome, hn] at hg
    · simp only [swapOutcome, hn, Bool.false_eq_true, if_false] at hg
      cases hfg : f.glyphs n with
      | none => rw [hfg] at hg; cases hg
      | some g0 =>
        rw [hfg, Option.map_some'] at hg
        have hgetNew : f.get new = gNew := by simp [Font.get, hgNew]
        have hgetOld : f.get old = gOld := by simp [Font.get, hgOld]
        by_cases ho : n = old
        · rw [if_pos ho] at hg
          have hcomps : g.components
              = (f.get new).components.map (Component.swapBase old new) :=
            (congrArg GlyphData.components (Option.some.inj hg)).symm
          rw [hcomps, hgetNew] at hc
          obtain ⟨c0, hc0, hcc⟩ := List.mem_map.mp hc
          subst hcc
          exact hsubst c0.baseGlyph (hpark new gNew hgNew c0 hc0)
        · by_cases hw : n = new
          · rw [if_neg ho, if_pos hw] at hg
            have hcomps : g.components
                = (f.get old).components.map (Component.swapBase old new) :=
              (congrArg GlyphData.components (Option.some.inj hg)).symm
            rw [hcomps, hgetOld] at hc
            obtain ⟨c0, hc0, hcc⟩ := List.mem_map.mp hc
            subst hcc
            exact hsubst c0.baseGlyph (hpark old gOld hgOld c0 hc0)
          · rw [if_neg ho, if_neg hw] at hg
            have hcomps : g.components
                = g0.components.map (Component.swapBase old new) :=
              (congrArg GlyphData.components (Option.some.inj hg)).symm
            rw [hcomps] at hc
            obtain ⟨c0, hc0, hcc⟩ := List.mem_map.mp hc
            subst hcc
            exact hsubst c0.baseGlyph (hpark n g0 hfg c0 hc0)

/-- The parking name differs from the parked glyph's name: the extension
is nonempty. -/
theorem park_ne_self (old : String) : old ++ swapNameExtension ≠ old := by
  intro h
  have hlen := congrArg String.length h
  rw [String.length_append] at hlen
  have : swapNameExtension.length = 19 := rfl
  omega

/-- The three component-remap passes, applied to a whole font in the
order `old → parking`, `new → old`, `parking → new`, act on every glyph
as the simultaneous `old ↔ new` exchange of base-glyph names, provided no
component referenced the parking name beforehand. -/
theorem threePass_pipeline (h : Font C T) (old new : String)
    (hpn : old ++ swapNameExtension ≠ new)
    (hpark : ∀ n g, h.glyphs n = some g → ∀ c ∈ g.components,
      c.baseGlyph ≠ old ++ swapNameExtension)
    (n : String) :
    (((h.remapComponents old (old ++ swapNameExtension)).remapComponents
        new old).remapComponents (old ++ swapNameExtension) new).glyphs n
      = (h.glyphs n).map fun g =>
          { g with components := g.components.map (Component.swapBase old new) } := by
  simp only [glyphs_remapComponents]
  cases hg : h.glyphs n with
  | none => simp
  | some g =>
    simp only [Option.map_some']
    simp
    intro c hc
    exact three_pass_eq_swapBase old new (old ++ swapNameExtension)
      (park_ne_self old) hpn c (hpark n g hg c hc)

/-- No glyph of `exampleFont` carries the swap extension in its name. -/
theorem exampleFont_hext :
    ∀ n, nameHasSwapExtension n = true → exampleFont.glyphs n = none := by
  intro n hn
  by_cases h1 : n = "a"
  · subst h1; exact absurd hn (by decide)
  · by_cases h2 : n = "b"
    · subst h2; exact absurd hn (by decide)
    · simp [exampleFont, h1, h2]

/-- No component of `exampleFont` references the parking name. -/
theorem exampleFont_hpark :
    ∀ n g, exampleFont.glyphs n = some g → ∀ c ∈ g.components,
      c.baseGlyph ≠ "a" ++ swapNameExtension := by
  intro n g hg c hc
  simp only [exampleFont] at hg
  by_cases h1 : n = "a"
  · rw [if_pos h1] at hg
    cases Option.some.inj hg
    simp at hc
  · rw [if_neg h1] at hg
    by_cases h2 : n = "b"
    · rw [if_pos h2] at hg
      cases Option.some.inj hg
      simp at hc
      subst hc
      decide
    · rw [if_neg h2] at hg
      cases hg

/-! ### Claim theorems about `swapGlyphNames` -/

/-- Claim C10 (confirmed): when `oldName` or `newName` is not a glyph of
the font, `swapGlyphNames` returns `None` immediately (here: the
state-transformer result is the unchanged font — no outlines, widths,
components, kerning or groups are modified). -/
theorem swapGlyphNames_missing_name_noop {C' T' : Type} (f : Font C' T')
    (oldName newName : String)
    (h : f.mem oldName = false ∨ f.mem newName = false) :
    swapGlyphNames f oldName newName = f := by
  unfold swapGlyphNames
  rw [if_pos]
  rcases h with h | h <;> simp [h]

/-- Witness for C10 at a concrete input: `"z"` is not in `exampleFont`,
so swapping `"a"` with `"z"` leaves the font untouched. -/
theorem swapGlyphNames_missing_name_noop_witness :
    swapGlyphNames exampleFont "a" "z" = exampleFont :=
  swapGlyphNames_missing_name_noop exampleFont "a" "z" (Or.inr (by decide))

/-- Claim C4 (confirmed): on a font with both (distinct) names present,
no extension-carrying glyph name and no component reference to the
parking name, `swapGlyphNames` exchanges the two glyphs' outlines and
widths (the parking glyph is temporary: absent afterwards), rewrites
component references over the whole glyph set — and the three separate
passes `old → parking`, `new → old`, `parking → new`, in that exact
order, net to the simultaneous old/new exchange —, rebuilds the kerning
into a fresh table with `oldName`/`newName` occurrences remapped, swaps
the two names in group member lists, and leaves each glyph's unicodes
with the glyph name (never exchanged). -/
theorem swapGlyphNames_exchange {C' T' : Type} (f : Font C' T')
    (oldName newName : String)
    (hold : f.mem oldName = true) (hnew : f.mem newName = true)
    (hne : oldName ≠ newName)
    (hext : ∀ n, nameHasSwapExtension n = true → f.glyphs n = none)
    (hpark : ∀ n g, f.glyphs n = some g → ∀ c ∈ g.components,
      c.baseGlyph ≠ oldName ++ swapNameExtension) :
    ∃ gO gN, f.glyphs oldName = some gO ∧ f.glyphs newName = some gN ∧
      (swapGlyphNames f oldName newName).glyphs oldName
        = some (GlyphData.mk gN.contours
            (gN.components.map (Component.swapBase oldName newName))
            gN.width gO.unicodes) ∧
      (swapGlyphNames f oldName newName).glyphs newName
        = some (GlyphData.mk gO.contours
            (gO.components.map (Component.swapBase oldName newName))
            gO.width gN.unicodes) ∧
      (swapGlyphNames f oldName newName).glyphs (oldName ++ swapNameExtension)
        = none ∧
      (∀ h : Font C' T',
        (∀ n g, h.glyphs n = some g → ∀ c ∈ g.components,
          c.baseGlyph ≠ oldName ++ swapNameExtension) →
        ∀ n, (((h.remapComponents oldName (oldName ++ swapNameExtension)).remapComponents
            newName oldName).remapComponents
              (oldName ++ swapNameExtension) newName).glyphs n
          = (h.glyphs n).map fun g =>
              { g with components :=
                  g.components.map (Component.swapBase oldName newName) }) ∧
      (swapGlyphNames f oldName newName).kerning
        = f.kerning.map (fun e =>
            ((swapNameSubst oldName newName e.1.1,
              swapNameSubst oldName newName e.1.2), e.2)) ∧
      (swapGlyphNames f oldName newName).groups
        = f.groups.map fun gr =>
            (gr.1, gr.2.map (swapNameSubst oldName newName)) := by
  have hexto : nameHasSwapExtension oldName = false := by
    cases hx : nameHasSwapExtension oldName
    · rfl
    · rw [Font.mem, hext _ hx] at hold; simp at hold
  have hextn : nameHasSwapExtension newName = false := by
    cases hx : nameHasSwapExtension newName
    · rfl
    · rw [Font.mem, hext _ hx] at hnew; simp at hnew
  obtain ⟨gO, hgO⟩ : ∃ g, f.glyphs oldName = some g := by
    rw [Font.mem, Option.isSome_iff_exists] at hold; exact hold
  obtain ⟨gN, hgN⟩ : ∃ g, f.glyphs newName = some g := by
    rw [Font.mem, Option.isSome_iff_exists] at hnew; exact hnew
  have hpn : oldName ++ swapNameExtension ≠ newName := by
    intro h
    rw [Font.mem, ← h, hext _ (nameHasSwapExtension_park oldName)] at hnew
    simp at hnew
  rw [swapGlyphNames_eq_outcome f oldName newName hold hnew hne hext hpark]
  refine ⟨gO, gN, hgO, hgN, ?_, ?_, ?_, ?_, rfl, rfl⟩
  · simp [swapOutcome, hexto, hgO, hgN, Font.get]
  · simp [swapOutcome, hextn, hgO, hgN, Font.get, Ne.symm hne]
  · simp [swapOutcome, nameHasSwapExtension_park]
  · intro h hparkh n
    exact threePass_pipeline h oldName newName hpn hparkh n

/-- Witness for C4 at a concrete input. -/
theorem swapGlyphNames_exchange_witness :
    ∃ gO gN, exampleFont.glyphs "a" = some gO ∧ exampleFont.glyphs "b" = some gN ∧
      (swapGlyphNames exampleFont "a" "b").glyphs "a"
        = some (GlyphData.mk gN.contours
            (gN.components.map (Component.swapBase "a" "b")) gN.width gO.unicodes) ∧
      (swapGlyphNames exampleFont "a" "b").glyphs "b"
        = some (GlyphData.mk gO.contours
            (gO.components.map (Component.swapBase "a" "b")) gO.width gN.unicodes) ∧
      (swapGlyphNames exampleFont "a" "b").glyphs ("a" ++ swapNameExtension)
        = none ∧
      (∀ h : Font Nat Unit,
        (∀ n g, h.glyphs n = some g → ∀ c ∈ g.components,
          c.baseGlyph ≠ "a" ++ swapNameExtension) →
        ∀ n, (((h.remapComponents "a" ("a" ++ swapNameExtension)).remapComponents
            "b" "a").remapComponents ("a" ++ swapNameExtension) "b").glyphs n
          = (h.glyphs n).map fun g =>
              { g with components :=
                  g.components.map (Component.swapBase "a" "b") }) ∧
      (swapGlyphNames exampleFont "a" "b").kerning
        = exampleFont.kerning.map (fun e =>
            ((swapNameSubst "a" "b" e.1.1, swapNameSubst "a" "b" e.1.2), e.2)) ∧
      (swapGlyphNames exampleFont "a" "b").groups
        = exampleFont.groups.map fun gr =>
            (gr.1, gr.2.map (swapNameSubst "a" "b")) :=
  swapGlyphNames_exchange exampleFont "a" "b" (by decide) (by decide)
    (by decide) exampleFont_hext exampleFont_hpark

/-- Claim C3 (corrected, counterexample part): the claim as stated fails —
a font containing a glyph whose name carries the swap extension loses
that glyph to the cleanup pass of the first swap, so the double swap does
not restore the original state even though both swapped names are
present. -/
theorem swapGlyphNames_double_swap_counterexample :
    strayFont.mem "a" = true ∧ strayFont.mem "b" = true ∧
      swapGlyphNames (swapGlyphNames strayFont "a" "b") "a" "b" ≠ strayFont := by
  refine ⟨by decide, by decide, fun h => ?_⟩
  exact absurd
    (congrArg (fun fo => fo.glyphs ("c" ++ swapNameExtension)) h)
    (by decide)

/-- Claim C3 (corrected, amended part): on every font in which both
names are present, no glyph name contains the swap extension, and no
component references the parking name, applying `swapGlyphNames` twice
with the same arguments restores the font exactly — outlines, widths,
kerning, groups and component references. -/
theorem swapGlyphNames_double_swap_restores {C' T' : Type} (f : Font C' T')
    (oldName newName : String)
    (hold : f.mem oldName = true) (hnew : f.mem newName = true)
    (hext : ∀ n, nameHasSwapExtension n = true → f.glyphs n = none)
    (hpark : ∀ n g, f.glyphs n = some g → ∀ c ∈ g.components,
      c.baseGlyph ≠ oldName ++ swapNameExtension) :
    swapGlyphNames (swapGlyphNames f oldName newName) oldName newName = f := by
  by_cases hne : oldName = newName
  · subst hne
    rw [swapGlyphNames_self f oldName hold hext hpark,
      swapGlyphNames_self f oldName hold hext hpark]
  · rw [swapGlyphNames_eq_outcome f oldName newName hold hnew hne hext hpark]
    obtain ⟨h1, h2, h3, h4⟩ :=
      swapOutcome_preserves f oldName newName hold hnew hext hpark
    rw [swapGlyphNames_eq_outcome _ oldName newName h1 h2 hne h3 h4]
    exact swapOutcome_involutive f oldName newName hold hnew hne hext

/-- Witness for the amended C3 at a concrete input. -/
theorem swapGlyphNames_double_swap_restores_witness :
    swapGlyphNames (swapGlyphNames exampleFont "a" "b") "a" "b" = exampleFont :=
  swapGlyphNames_double_swap_restores exampleFont "a" "b" (by decide) (by decide)
    exampleFont_hext exampleFont_hpark

/-! ### Location-model lemmas and claim C6 -/

/-- Recombining the two halves of a split location pairwise restores the
original location, provided no value is a degenerate pair. -/
theorem combine_split_roundtrip (loc : Loc)
    (h : ∀ dv ∈ loc, ¬ dv.2.degeneratePair) :
    combineAnisotropic (splitAnisotropic loc).1 (splitAnisotropic loc).2 = loc := by
  induction loc with
  | nil => rfl
  | cons dv rest ih =>
    obtain ⟨d, v⟩ := dv
    have hv := h (d, v) (List.mem_cons_self _ _)
    have hrest := fun dv hdv => h dv (List.mem_cons_of_mem _ hdv)
    cases v with
    | scalar s =>
      simpa [splitAnisotropic, combineAnisotropic, LocVal.horizontalPart,
        LocVal.verticalPart] using ih hrest
    | pair a b =>
      have hab : ¬ a = b := hv
      simpa [splitAnisotropic, combineAnisotropic, LocVal.horizontalPart,
        LocVal.verticalPart, hab] using ih hrest

/-- A location is anisotropic exactly when some axis carries a pair. -/
theorem isAnisotropic_iff_pair (loc : Loc) :
    isAnisotropic loc = true ↔ ∃ d x y, (d, LocVal.pair x y) ∈ loc := by
  unfold isAnisotropic
  rw [List.any_eq_true]
  constructor
  · rintro ⟨⟨d, v⟩, hmem, hv⟩
    cases v with
    | scalar s => simp at hv
    | pair x y => exact ⟨d, x, y, hmem⟩
  · rintro ⟨d, x, y, hmem⟩
    exact ⟨(d, LocVal.pair x y), hmem, rfl⟩

/-- Claim C6 (confirmed): `splitAnisotropic` sends each pair `(x, y)` to
`x` in the horizontal half and `y` in the vertical half and copies each
scalar unchanged into both; pairwise recombination of the two halves
restores every location with no degenerate pair; and `isAnisotropic`
holds exactly when at least one axis value is a pair. -/
theorem splitAnisotropic_spec :
    (∀ x y : ℚ, (LocVal.pair x y).horizontalPart = LocVal.scalar x ∧
      (LocVal.pair x y).verticalPart = LocVal.scalar y) ∧
    (∀ v : ℚ, (LocVal.scalar v).horizontalPart = LocVal.scalar v ∧
      (LocVal.scalar v).verticalPart = LocVal.scalar v) ∧
    (∀ loc : Loc, splitAnisotropic loc =
      (loc.map fun dv => (dv.1, dv.2.horizontalPart),
       loc.map fun dv => (dv.1, dv.2.verticalPart))) ∧
    (∀ loc : Loc, (∀ dv ∈ loc, ¬ dv.2.degeneratePair) →
      combineAnisotropic (splitAnisotropic loc).1 (splitAnisotropic loc).2 = loc) ∧
    (∀ loc : Loc, isAnisotropic loc = true ↔ ∃ d x y, (d, LocVal.pair x y) ∈ loc) :=
  ⟨fun _ _ => ⟨rfl, rfl⟩, fun _ => ⟨rfl, rfl⟩, fun _ => rfl,
    combine_split_roundtrip, isAnisotropic_iff_pair⟩

/-- Witness for C6 at a concrete location: the round trip restores it and
it is detected as anisotropic. -/
theorem splitAnisotropic_spec_witness :
    combineAnisotropic (splitAnisotropic demoLoc).1 (splitAnisotropic demoLoc).2
        = demoLoc ∧
      (isAnisotropic demoLoc = true) :=
  ⟨splitAnisotropic_spec.2.2.2.1 demoLoc (by decide),
   (splitAnisotropic_spec.2.2.2.2 demoLoc).mpr ⟨"weight", 100, 200, by decide⟩⟩

/-! ### Claim C1: anisotropic combination weights -/

/-- Claim C1 (confirmed): for an anisotropic location, the font-info
recombination computed by `makeInstance`'s info block is the weighted sum
`(1,0)·horizontal + (0,1)·vertical` (and the interpolated info stored on
the output font is exactly that sum), while the glyph-geometry
recombination uses `(0,1)·horizontal + (1,0)·vertical` — each glyph
weight pair is the `Prod.swap` of the corresponding info weight pair, so
the two weight pairs are exactly reversed relative to each other. -/
theorem anisotropic_weights_reversed {G V Mut : Type} :
    (∀ (E : Externals G V Mut) (m : Mut) (loc locH locV : Loc) (h v : V),
      E.makeInst m locH = .ok h → E.makeInst m locV = .ok v →
      makeInfoValue E m loc locH locV true
        = .ok (E.vadd (E.vsmul (1, 0) h) (E.vsmul (0, 1) v))) ∧
    (∀ (E : Externals G V Mut) (inst : InstanceDescriptor)
      (loc locH locV : Loc) (st : PState G V Mut) (font : OutFont V)
      (m : Mut) (st1 : PState G V Mut) (h v : V),
      getInfoMutator E st = .ok m st1 →
      E.makeInst m locH = .ok h → E.makeInst m locV = .ok v →
      (infoStep E inst loc locH locV true st font).2.info.interpolated
        = some (E.vadd (E.vsmul (1, 0) h) (E.vsmul (0, 1) v))) ∧
    (∀ (E : Externals G V Mut) (m : Mut) (gloc : Loc) (h v : V),
      isAnisotropic gloc = true →
      E.makeInst m (splitAnisotropic gloc).1 = .ok h →
      E.makeInst m (splitAnisotropic gloc).2 = .ok v →
      makeGlyphValue E m gloc
        = .ok (E.vadd (E.vsmul (Prod.swap (1, 0)) h)
            (E.vsmul (Prod.swap (0, 1)) v)) ∧
      makeGlyphValue E m gloc
        = .ok (E.vadd (E.vsmul (0, 1) h) (E.vsmul (1, 0) v))) := by
  refine ⟨?_, ?_, ?_⟩
  · intro E m loc locH locV h v hh hv
    simp only [makeInfoValue, if_true, hh, hv]
    rfl
  · intro E inst loc locH locV st font m st1 h v hmut hh hv
    simp only [infoStep, hmut, makeInfoValue, if_true, hh, hv]
    rfl
  · intro E m gloc h v haniso hh hv
    constructor <;>
      · simp only [makeGlyphValue, haniso, if_true, hh, hv]
        rfl

/-- Witness for C1 at concrete inputs: evaluating `demoE` on the split
halves of `demoLoc` and recombining. -/
theorem anisotropic_weights_reversed_witness :
    makeInfoValue demoE () demoLoc (splitAnisotropic demoLoc).1
        (splitAnisotropic demoLoc).2 true
      = .ok (demoE.vadd (demoE.vsmul (1, 0) 150) (demoE.vsmul (0, 1) 150)) ∧
    makeGlyphValue demoE () demoLoc
      = .ok (demoE.vadd (demoE.vsmul (0, 1) 150) (demoE.vsmul (1, 0) 150)) :=
  ⟨anisotropic_weights_reversed.1 demoE () demoLoc _ _ 150 150 rfl rfl,
   ((anisotropic_weights_reversed.2.2 demoE () demoLoc 150 150 (by decide)
      rfl rfl).2)⟩

/-! ### Claim C5: the glyph-mutator cache -/

/-- Claim C5 (confirmed): `getGlyphMutator` caches under the compound key
`(glyphName, decomposeComponents)`.  A call whose key is cached and with
`fromCache` true returns the cached object with the state — cache and
problems included — completely untouched (no rebuild); a call with
`fromCache` false, or whose key is absent, rebuilds from the collected
masters and overwrites exactly the entry for its own key, leaving every
other key (in particular the same name with the other decompose flag)
unchanged. -/
theorem getGlyphMutator_cache {G V Mut : Type} :
    (∀ (E : Externals G V Mut) (st : PState G V Mut) (n : String) (d : Bool)
      (m : Mut), st.glyphMutators (n, d) = some m →
      getGlyphMutator E st n d true = .ok m st) ∧
    (∀ (E : Externals G V Mut) (st : PState G V Mut) (n : String) (d : Bool)
      (fromCache : Bool) (items : List (Loc × V × SourceInfo)) (mNew : Mut),
      (fromCache = false ∨ st.glyphMutators (n, d) = none) →
      collectMastersForGlyph E st n d = some items →
      E.buildModel (items.map fun it => (it.1, E.remath it.2.1)) = some mNew →
      getGlyphMutator E st n d fromCache
        = .ok mNew { st with glyphMutators :=
            fun k => if k = (n, d) then some mNew else st.glyphMutators k }) ∧
    (∀ (E : Externals G V Mut) (st : PState G V Mut) (n : String) (d : Bool)
      (fromCache : Bool) (items : List (Loc × V × SourceInfo)) (mNew : Mut)
      (k : String × Bool),
      (fromCache = false ∨ st.glyphMutators (n, d) = none) →
      collectMastersForGlyph E st n d = some items →
      E.buildModel (items.map fun it => (it.1, E.remath it.2.1)) = some mNew →
      k ≠ (n, d) →
      ∀ st1 : PState G V Mut, getGlyphMutator E st n d fromCache = .ok mNew st1 →
        st1.glyphMutators k = st.glyphMutators k) := by
  have hbuild : ∀ (E : Externals G V Mut) (st : PState G V Mut) (n : String)
      (d : Bool) (fromCache : Bool) (items : List (Loc × V × SourceInfo))
      (mNew : Mut),
      (fromCache = false ∨ st.glyphMutators (n, d) = none) →
      collectMastersForGlyph E st n d = some items →
      E.buildModel (items.map fun it => (it.1, E.remath it.2.1)) = some mNew →
      getGlyphMutator E st n d fromCache
        = .ok mNew { st with glyphMutators :=
            fun k => if k = (n, d) then some mNew else st.glyphMutators k } := by
    intro E st n d fromCache items mNew hmiss hitems hmodel
    have hvm : getVariationModel E st (items.map fun it => (it.1, E.remath it.2.1))
        = (some mNew, st) := by
      simp [getVariationModel, hmodel]
    rcases hmiss with hf | hnone
    · subst hf
      cases hc : st.glyphMutators (n, d) with
      | none => simp [getGlyphMutator, hc, hitems, hvm]
      | some m0 => simp [getGlyphMutator, hc, hitems, hvm]
    · simp [getGlyphMutator, hnone, hitems, hvm]
  refine ⟨?_, hbuild, ?_⟩
  · intro E st n d m hc
    simp [getGlyphMutator, hc]
  · intro E st n d fromCache items mNew k hmiss hitems hmodel hk st1 hres
    rw [hbuild E st n d fromCache items mNew hmiss hitems hmodel] at hres
    cases hres
    simp [hk]

/-- Witness for C5 at concrete inputs: a cache hit with `fromCache` true
returns the cached mutator and an untouched state, while `fromCache`
false rebuilds (from the empty master list) and overwrites the entry,
leaving the independent key `("a", true)` unchanged. -/
theorem getGlyphMutator_cache_witness :
    getGlyphMutator demoE demoStateCached "a" false true
        = .ok () demoStateCached ∧
    getGlyphMutator demoE demoStateCached "a" false false
        = .ok () demoStateRebuilt ∧
    demoStateRebuilt.glyphMutators ("a", true)
        = demoStateCached.glyphMutators ("a", true) :=
  ⟨getGlyphMutator_cache.1 demoE demoStateCached "a" false () rfl,
   getGlyphMutator_cache.2.1 demoE demoStateCached "a" false false [] ()
     (Or.inl rfl) rfl rfl,
   getGlyphMutator_cache.2.2 demoE demoStateCached "a" false false
     [] () ("a", true) (Or.inl rfl) rfl rfl (by decide) demoStateRebuilt
     (getGlyphMutator_cache.2.1 demoE demoStateCached "a" false false [] ()
       (Or.inl rfl) rfl rfl)⟩

/-- The collection loop equals the per-source contributions filtered
together, provided every source's font is loaded. -/
theorem collectMastersAux_eq_filterMap (E : Externals G V Mut)
    (fonts : String → Option (SrcFont G)) (glyphName : String)
    (decomposeComponents : Bool) (sources : List SourceDescriptor)
    (hloaded : ∀ sd ∈ sources, (fonts sd.name).isSome = true) :
    collectMastersAux E fonts glyphName decomposeComponents sources
      = some (sources.filterMap
          (sourceContribution E fonts glyphName decomposeComponents)) := by
  induction sources with
  | nil => rfl
  | cons sd rest ih =>
    have hsd := hloaded sd (List.mem_cons_self _ _)
    have hrest := ih fun s hs => hloaded s (List.mem_cons_of_mem _ hs)
    obtain ⟨f, hf⟩ : ∃ f, fonts sd.name = some f :=
      Option.isSome_iff_exists.mp hsd
    by_cases hmut : glyphName ∈ sd.mutedGlyphNames
    · simp [collectMastersAux, sourceContribution, hmut, hrest,
        List.filterMap_cons]
    · cases hgs : f.glyphSet glyphName with
      | none =>
        simp [collectMastersAux, sourceContribution, hmut, hf, hgs, hrest,
          List.filterMap_cons]
      | some g =>
        cases hln : sd.layerName with
        | none =>
          simp [collectMastersAux, sourceContribution, hmut, hf, hgs, hln,
            hrest, List.filterMap_cons]
        | some ln =>
          cases hlay : f.layers ln with
          | none =>
            simp [collectMastersAux, sourceContribution, hmut, hf, hgs, hln,
              hlay, hrest, List.filterMap_cons]
          | some layer =>
            cases hlg : layer glyphName with
            | none =>
              simp [collectMastersAux, sourceContribution, hmut, hf, hgs,
                hln, hlay, hlg, hrest, List.filterMap_cons]
            | some g2 =>
              simp [collectMastersAux, sourceContribution, hmut, hf, hgs,
                hln, hlay, hlg, hrest, List.filterMap_cons]

/-- Claim C7 (confirmed): with all source fonts loaded,
`collectMastersForGlyph` returns exactly the filtered per-source
contributions — an excluded source contributes no item at all rather
than a zero value — and a loaded source's contribution is `none` exactly
when the glyph is muted for it, absent from the source font, or absent
from the source's named layer (when that layer exists). -/
theorem collectMastersForGlyph_excludes {G V Mut : Type} :
    (∀ (E : Externals G V Mut) (st : PState G V Mut) (glyphName : String)
      (decomposeComponents : Bool),
      (∀ sd ∈ st.sources, (st.fonts sd.name).isSome = true) →
      collectMastersForGlyph E st glyphName decomposeComponents
        = some (st.sources.filterMap
            (sourceContribution E st.fonts glyphName decomposeComponents))) ∧
    (∀ (E : Externals G V Mut) (fonts : String → Option (SrcFont G))
      (glyphName : String) (decomposeComponents : Bool)
      (sd : SourceDescriptor) (f : SrcFont G), fonts sd.name = some f →
      (sourceContribution E fonts glyphName decomposeComponents sd = none ↔
        glyphName ∈ sd.mutedGlyphNames ∨ f.glyphSet glyphName = none ∨
        (∃ ln layer, sd.layerName = some ln ∧ f.layers ln = some layer ∧
          layer glyphName = none))) := by
  constructor
  · intro E st glyphName dec hloaded
    exact collectMastersAux_eq_filterMap E st.fonts glyphName dec st.sources hloaded
  · intro E fonts glyphName dec sd f hf
    by_cases hmut : glyphName ∈ sd.mutedGlyphNames
    · simp [sourceContribution, hmut]
    · cases hgs : f.glyphSet glyphName with
      | none => simp [sourceContribution, hmut, hf, hgs]
      | some g =>
        have hnotnone : ¬ f.glyphSet glyphName = none := by simp [hgs]
        cases hln : sd.layerName with
        | none =>
          have hc : sourceContribution E fonts glyphName dec sd ≠ none := by
            simp [sourceContribution, hmut, hf, hgs, hln]
          constructor
          · intro h; exact absurd h hc
          · rintro (h | h | ⟨ln2, layer2, hln2, hlay2, hnone2⟩)
            · exact absurd h hmut
            · exact Option.noConfusion h
            · exact Option.noConfusion hln2
        | some ln =>
          cases hlay : f.layers ln with
          | none =>
            have hc : sourceContribution E fonts glyphName dec sd ≠ none := by
              simp [sourceContribution, hmut, hf, hgs, hln, hlay]
            constructor
            · intro h; exact absurd h hc
            · rintro (h | h | ⟨ln2, layer2, hln2, hlay2, hnone2⟩)
              · exact absurd h hmut
              · exact Option.noConfusion h
              · have he := Option.some.inj hln2
                subst he
                rw [hlay] at hlay2
                exact Option.noConfusion hlay2
          | some layer =>
            cases hlg : layer glyphName with
            | none =>
              have hc : sourceContribution E fonts glyphName dec sd = none := by
                simp [sourceContribution, hmut, hf, hgs, hln, hlay, hlg]
              rw [hc]
              exact ⟨fun _ => Or.inr (Or.inr ⟨ln, layer, rfl, hlay, hlg⟩),
                fun _ => rfl⟩
            | some g2 =>
              have hc : sourceContribution E fonts glyphName dec sd ≠ none := by
                simp [sourceContribution, hmut, hf, hgs, hln, hlay, hlg]
              constructor
              · intro h; exact absurd h hc
              · rintro (h | h | ⟨ln2, layer2, hln2, hlay2, hnone2⟩)
                · exact absurd h hmut
                · exact Option.noConfusion h
                · have he := Option.some.inj hln2
                  subst he
                  rw [hlay] at hlay2
                  have he2 := Option.some.inj hlay2
                  subst he2
                  rw [hlg] at hnone2
                  exact Option.noConfusion hnone2

/-- Witness for C7 at concrete inputs: the three excluded sources (muted,
absent from the font, absent from the named layer) contribute `none` and
the collected list is the filtered contributions. -/
theorem collectMastersForGlyph_excludes_witness :
    collectMastersForGlyph demoE demoCollectState "a" false
        = some (demoSources.filterMap
            (sourceContribution demoE demoFonts "a" false)) ∧
    sourceContribution demoE demoFonts "a" false (demoSources.get ⟨0, by decide⟩)
        = none ∧
    sourceContribution demoE demoFonts "a" false (demoSources.get ⟨1, by decide⟩)
        = none ∧
    sourceContribution demoE demoFonts "a" false (demoSources.get ⟨2, by decide⟩)
        = none :=
  ⟨collectMastersForGlyph_excludes.1 demoE demoCollectState "a" false
      (by decide),
   (collectMastersForGlyph_excludes.2 demoE demoFonts "a" false
      (demoSources.get ⟨0, by decide⟩) srcFontPlain
      rfl).mpr (Or.inl (by decide)),
   (collectMastersForGlyph_excludes.2 demoE demoFonts "a" false
      (demoSources.get ⟨1, by decide⟩) srcFontEmpty
      rfl).mpr (Or.inr (Or.inl rfl)),
   (collectMastersForGlyph_excludes.2 demoE demoFonts "a" false
      (demoSources.get ⟨2, by decide⟩) srcFontSparse
      rfl).mpr (Or.inr (Or.inr ⟨"L", fun _ => none, rfl, rfl, rfl⟩))⟩

/-! ### Step lemmas shared by the error-policy and naming claims -/

/-- Successful info block: interpolation stored and the five naming
overrides applied right after it. -/
theorem infoStep_ok (E : Externals G V Mut) (inst : InstanceDescriptor)
    (loc locH locV : Loc) (aniso : Bool) (st : PState G V Mut)
    (font : OutFont V) (m : Mut) (st1 : PState G V Mut) (v : V)
    (hmut : getInfoMutator E st = .ok m st1)
    (hval : makeInfoValue E m loc locH locV aniso = .ok v) :
    infoStep E inst loc locH locV aniso st font
      = (st1,
         { font with info :=
            { font.info with
              interpolated := some v,
              familyName := inst.familyName,
              styleName := inst.styleName,
              postScriptFontName := inst.postScriptFontName,
              styleMapFamilyName := inst.styleMapFamilyName,
              styleMapStyleName := inst.styleMapStyleName } }) := by
  simp [infoStep, hmut, hval]

/-- Info block with a failing mutator acquisition: caught, one problem
entry appended, font untouched (naming overrides not applied). -/
theorem infoStep_mutator_exn (E : Externals G V Mut) (inst : InstanceDescriptor)
    (loc locH locV : Loc) (aniso : Bool) (st : PState G V Mut)
    (font : OutFont V) (e : PyErr) (st1 : PState G V Mut)
    (hmut : getInfoMutator E st = .exn e st1) :
    infoStep E inst loc locH locV aniso st font
      = ({ st1 with problems :=
            st1.problems ++ ["Could not make fontinfo for instance"] }, font) := by
  simp [infoStep, hmut]

/-- Info block with a failing interpolation: caught, one problem entry
appended, font untouched (naming overrides not applied). -/
theorem infoStep_eval_exn (E : Externals G V Mut) (inst : InstanceDescriptor)
    (loc locH locV : Loc) (aniso : Bool) (st : PState G V Mut)
    (font : OutFont V) (m : Mut) (st1 : PState G V Mut) (e : PyErr)
    (hmut : getInfoMutator E st = .ok m st1)
    (hval : makeInfoValue E m loc locH locV aniso = .error e) :
    infoStep E inst loc locH locV aniso st font
      = ({ st1 with problems :=
            st1.problems ++ ["Could not make fontinfo for instance"] }, font) := by
  simp [infoStep, hmut, hval]

/-- Kerning block with a failing mutator acquisition: caught, one
problem entry appended, no kerning extracted. -/
theorem kerningStep_mutator_exn (E : Externals G V Mut)
    (inst : InstanceDescriptor) (locH : Loc) (st : PState G V Mut)
    (font : OutFont V) (e : PyErr) (st1 : PState G V Mut)
    (hk : inst.kerning = true)
    (hmut : getKerningMutator E st = .exn e st1) :
    kerningStep E inst locH st font
      = ({ st1 with problems :=
            st1.problems ++ ["Could not make kerning for instance"] }, font) := by
  simp [kerningStep, hk, hmut]

/-- Kerning block with a failing evaluation: caught, one problem entry
appended, no kerning extracted. -/
theorem kerningStep_eval_exn (E : Externals G V Mut)
    (inst : InstanceDescriptor) (locH : Loc) (st : PState G V Mut)
    (font : OutFont V) (m : Mut) (st1 : PState G V Mut) (e : PyErr)
    (hk : inst.kerning = true)
    (hmut : getKerningMutator E st = .ok m st1)
    (hval : E.makeInst m locH = .error e) :
    kerningStep E inst locH st font
      = ({ st1 with problems :=
            st1.problems ++ ["Could not make kerning for instance"] }, font) := by
  simp [kerningStep, hk, hmut, hval]

/-- Glyph iteration whose mutator acquisition fails: caught, one problem
entry naming the glyph appended, the glyph skipped entirely (not even
created), and the loop continues (a normal result). -/
theorem glyphStep_mutator_exn (E : Externals G V Mut)
    (inst : InstanceDescriptor) (st : PState G V Mut) (font : OutFont V)
    (gn : String) (e : PyErr) (st1 : PState G V Mut)
    (hmut : getGlyphMutator E st gn false true = .exn e st1) :
    glyphStep E inst st font gn
      = .ok () ({ st1 with problems :=
            st1.problems ++ ["Could not make mutator for glyph " ++ gn] }, font) := by
  simp [glyphStep, hmut]

/-- Glyph iteration whose interpolation raises `IndexError`: caught (a
`print` and `continue`), the glyph left present but empty, and — unlike
every other handler — *no* problems entry appended. -/
theorem glyphStep_indexError (E : Externals G V Mut)
    (inst : InstanceDescriptor) (st : PState G V Mut) (font : OutFont V)
    (gn : String) (m : Mut) (st1 : PState G V Mut)
    (hmut : getGlyphMutator E st gn false true = .ok m st1)
    (hov : (inst.glyphs.find? fun p => p.1 = gn) = none)
    (hval : makeGlyphValue E m inst.location = .error .indexError) :
    glyphStep E inst st font gn
      = .ok () (st1,
          { font with glyphs := fun n =>
              if n = gn then some OutGlyph.empty else font.glyphs n }) := by
  simp [glyphStep, hmut, hov, GlyphOverride.default, glyphStepFill, hval]

/-! ### Claim C8: naming overrides and the info `try` -/

/-- Claim C8 (corrected, amended part): the five naming overrides are
applied directly after a *successful* info interpolation; when the info
step fails — mutator acquisition or evaluation — the failure is caught,
a problem entry is appended, and the naming overrides are **not**
applied (the sequence sits inside one `try`, so the exception jumps past
the naming lines). -/
theorem naming_overrides_after_info {G V Mut : Type} :
    (∀ (E : Externals G V Mut) (inst : InstanceDescriptor)
      (loc locH locV : Loc) (aniso : Bool) (st : PState G V Mut)
      (font : OutFont V) (m : Mut) (st1 : PState G V Mut) (v : V),
      getInfoMutator E st = .ok m st1 →
      makeInfoValue E m loc locH locV aniso = .ok v →
      infoStep E inst loc locH locV aniso st font
        = (st1,
           { font with info :=
              { font.info with
                interpolated := some v,
                familyName := inst.familyName,
                styleName := inst.styleName,
                postScriptFontName := inst.postScriptFontName,
                styleMapFamilyName := inst.styleMapFamilyName,
                styleMapStyleName := inst.styleMapStyleName } })) ∧
    (∀ (E : Externals G V Mut) (inst : InstanceDescriptor)
      (loc locH locV : Loc) (aniso : Bool) (st : PState G V Mut)
      (font : OutFont V) (e : PyErr) (st1 : PState G V Mut),
      getInfoMutator E st = .exn e st1 →
      infoStep E inst loc locH locV aniso st font
        = ({ st1 with problems :=
              st1.problems ++ ["Could not make fontinfo for instance"] }, font)) ∧
    (∀ (E : Externals G V Mut) (inst : InstanceDescriptor)
      (loc locH locV : Loc) (aniso : Bool) (st : PState G V Mut)
      (font : OutFont V) (m : Mut) (st1 : PState G V Mut) (e : PyErr),
      getInfoMutator E st = .ok m st1 →
      makeInfoValue E m loc locH locV aniso = .error e →
      infoStep E inst loc locH locV aniso st font
        = ({ st1 with problems :=
              st1.problems ++ ["Could not make fontinfo for instance"] }, font)) :=
  ⟨fun E inst loc locH locV aniso st font m st1 v hmut hval =>
      infoStep_ok E inst loc locH locV aniso st font m st1 v hmut hval,
   fun E inst loc locH locV aniso st font e st1 hmut =>
      infoStep_mutator_exn E inst loc locH locV aniso st font e st1 hmut,
   fun E inst loc locH locV aniso st font m st1 e hmut hval =>
      infoStep_eval_exn E inst loc locH locV aniso st font m st1 e hmut hval⟩

/-- Claim C8 (corrected, counterexample part): a concrete `makeInstance`
run whose info interpolation fails.  The instance carries
`familyName = "Override"`, yet the generated font's `familyName` is
unset — the naming overrides were *not* applied after the failed
interpolation; the failure went to the problems log instead. -/
theorem naming_overrides_counterexample :
    c8Inst.familyName = some "Override" ∧
    makeInstance failE c8State c8Inst false none
      = .ok c8ExpectedFont
          { c8State with problems := ["Could not make fontinfo for instance"] } ∧
    c8ExpectedFont.info.familyName = none :=
  ⟨rfl, rfl, rfl⟩

/-- Witness for the amended C8 at concrete inputs: with working oracles
(`demoE`) the naming overrides land on the font, with failing oracles
(`failE`) they do not and a problem entry appears. -/
theorem naming_overrides_after_info_witness :
    infoStep demoE c8Inst [] [] [] false c8State OutFont.empty
      = (c8State,
         { (OutFont.empty : OutFont ℚ) with info :=
            { (OutFont.empty : OutFont ℚ).info with
              interpolated := some 150,
              familyName := c8Inst.familyName,
              styleName := c8Inst.styleName,
              postScriptFontName := c8Inst.postScriptFontName,
              styleMapFamilyName := c8Inst.styleMapFamilyName,
              styleMapStyleName := c8Inst.styleMapStyleName } }) ∧
    infoStep failE c8Inst [] [] [] false c8State OutFont.empty
      = ({ c8State with problems :=
            c8State.problems ++ ["Could not make fontinfo for instance"] },
         OutFont.empty) :=
  ⟨naming_overrides_after_info.1 demoE c8Inst [] [] [] false c8State
      OutFont.empty () c8State 150 rfl rfl,
   naming_overrides_after_info.2.2 failE c8Inst [] [] [] false c8State
      OutFont.empty () c8State .otherError rfl rfl⟩

/-! ### Claim C9: per-glyph unicodes and the note override -/

/-- Claim C9 (code_bug): the unicodes half of the claim holds — the
output glyph's unicodes come from the override's `unicodes` entry when
present and otherwise from the neutral master's — but the note half does
not: a nonempty `note` override executes `font[glyphName] = note`, an
item assignment that defcon fonts do not support, so `makeInstance`
raises `TypeError` with the glyph still empty and no glyph's note is
ever set on any path of the embedded code. -/
theorem glyph_note_and_unicodes {G V Mut : Type} :
    (∀ (E : Externals G V Mut) (inst : InstanceDescriptor)
      (st : PState G V Mut) (font : OutFont V) (gn : String) (m : Mut)
      (st1 : PState G V Mut) (pr : String × GlyphOverride) (noteText : String),
      getGlyphMutator E st gn false true = .ok m st1 →
      (inst.glyphs.find? fun p => p.1 = gn) = some pr →
      pr.2.mute = false → pr.2.note = some noteText → noteText ≠ "" →
      glyphStep E inst st font gn
        = .exn .typeError (st1,
            { font with glyphs := fun n =>
                if n = gn then some OutGlyph.empty else font.glyphs n })) ∧
    (∀ (E : Externals G V Mut) (inst : InstanceDescriptor)
      (st : PState G V Mut) (font : OutFont V) (gn : String) (m : Mut)
      (st1 : PState G V Mut) (pr : String × GlyphOverride) (v : V),
      getGlyphMutator E st gn false true = .ok m st1 →
      (inst.glyphs.find? fun p => p.1 = gn) = some pr →
      pr.2.mute = false → pr.2.note = none → pr.2.masters = [] →
      st1.roundGeometry = false →
      makeGlyphValue E m (pr.2.instanceLocation.getD inst.location) = .ok v →
      glyphStep E inst st font gn
        = .ok () (st1,
            { font with glyphs := fun n =>
                if n = gn then some (OutGlyph.mk (some v) (some (E.widthOf v)) (pr.2.unicodes.getD ((E.neutralGet m).getD [])) none)
                else font.glyphs n })) ∧
    (∀ (E : Externals G V Mut) (inst : InstanceDescriptor)
      (st : PState G V Mut) (font : OutFont V) (gn : String) (m : Mut)
      (st1 : PState G V Mut) (v : V),
      getGlyphMutator E st gn false true = .ok m st1 →
      (inst.glyphs.find? fun p => p.1 = gn) = none →
      st1.roundGeometry = false →
      makeGlyphValue E m inst.location = .ok v →
      glyphStep E inst st font gn
        = .ok () (st1,
            { font with glyphs := fun n =>
                if n = gn then some (OutGlyph.mk (some v) (some (E.widthOf v)) ((E.neutralGet m).getD []) none)
                else font.glyphs n })) := by
  refine ⟨?_, ?_, ?_⟩
  · intro E inst st font gn m st1 pr noteText hmut hov hmute hnote hne
    simp [glyphStep, hmut, hov, hmute, hnote, hne]
  · intro E inst st font gn m st1 pr v hmut hov hmute hnote hmast hround hval
    have hfun : ∀ (g : Option (OutGlyph V)) (f0 : String → Option (OutGlyph V)),
        (fun n => if n = gn then g
          else if n = gn then some OutGlyph.empty else f0 n)
          = fun n => if n = gn then g else f0 n := by
      intro g f0
      funext n
      by_cases h : n = gn <;> simp [h]
    simp only [glyphStep, hmut, hov, hmute, hnote, hmast, glyphStepFill,
      hval, hround, Option.getD_some, List.isEmpty_nil, if_true, if_false,
      Bool.false_eq_true, Option.map_some']
    rw [hfun]
  · intro E inst st font gn m st1 v hmut hov hround hval
    have hfun : ∀ (g : Option (OutGlyph V)) (f0 : String → Option (OutGlyph V)),
        (fun n => if n = gn then g
          else if n = gn then some OutGlyph.empty else f0 n)
          = fun n => if n = gn then g else f0 n := by
      intro g f0
      funext n
      by_cases h : n = gn <;> simp [h]
    simp only [glyphStep, hmut, hov, GlyphOverride.default, glyphStepFill,
      hval, hround, Option.getD_none, Option.getD_some, Option.map_none',
      List.isEmpty_nil, if_true, if_false, Bool.false_eq_true,
      Option.map_some']
    rw [hfun]

/-- Witness for C9 at a concrete input: the note override makes the
per-glyph assembly raise `TypeError` with the glyph still empty. -/
theorem glyph_note_and_unicodes_witness :
    glyphStep demoE noteInst demoStateCached OutFont.empty "a"
      = .exn .typeError (demoStateCached,
          withEmptyGlyph "a" (OutFont.empty : OutFont ℚ)) :=
  glyph_note_and_unicodes.1 demoE noteInst demoStateCached OutFont.empty "a"
    () demoStateCached ("a",
      { mute := false, instanceLocation := none, unicodes := some [97],
        note := some "hello", masters := [] }) "hello" rfl rfl rfl rfl
    (by decide)

/-! ### Claim C2: the error policy -/

/-- Claim C2 (corrected, amended part): the absence of a default source
makes `generateUFO` raise `UFOProcessorError` before any instance is
built; kerning failures, font-info failures and per-glyph mutator
failures are each caught, appended to the problems log, and processing
continues (the step returns normally and the glyph loop moves on); but a
per-glyph interpolation `IndexError` — while caught and survived — is
dropped with *no* problems entry. -/
theorem error_policy {G V Mut : Type} :
    (∀ (E : Externals G V Mut) (st : PState G V Mut) (flag : Bool),
      E.findDefault st.sources = none →
      generateUFO E st flag = .exn .ufoProcessorError { st with default := none }) ∧
    (∀ (E : Externals G V Mut) (inst : InstanceDescriptor) (locH : Loc)
      (st : PState G V Mut) (font : OutFont V) (e : PyErr)
      (st1 : PState G V Mut), inst.kerning = true →
      getKerningMutator E st = .exn e st1 →
      kerningStep E inst locH st font
        = ({ st1 with problems :=
              st1.problems ++ ["Could not make kerning for instance"] }, font)) ∧
    (∀ (E : Externals G V Mut) (inst : InstanceDescriptor) (locH : Loc)
      (st : PState G V Mut) (font : OutFont V) (m : Mut)
      (st1 : PState G V Mut) (e : PyErr), inst.kerning = true →
      getKerningMutator E st = .ok m st1 → E.makeInst m locH = .error e →
      kerningStep E inst locH st font
        = ({ st1 with problems :=
              st1.problems ++ ["Could not make kerning for instance"] }, font)) ∧
    (∀ (E : Externals G V Mut) (inst : InstanceDescriptor)
      (loc locH locV : Loc) (aniso : Bool) (st : PState G V Mut)
      (font : OutFont V) (e : PyErr) (st1 : PState G V Mut),
      getInfoMutator E st = .exn e st1 →
      infoStep E inst loc locH locV aniso st font
        = ({ st1 with problems :=
              st1.problems ++ ["Could not make fontinfo for instance"] }, font)) ∧
    (∀ (E : Externals G V Mut) (inst : InstanceDescriptor)
      (st : PState G V Mut) (font : OutFont V) (gn : String) (e : PyErr)
      (st1 : PState G V Mut),
      getGlyphMutator E st gn false true = .exn e st1 →
      glyphStep E inst st font gn
        = .ok () ({ st1 with problems :=
              st1.problems ++ ["Could not make mutator for glyph " ++ gn] },
            font)) ∧
    (∀ (E : Externals G V Mut) (inst : InstanceDescriptor)
      (st : PState G V Mut) (font : OutFont V) (gn : String) (m : Mut)
      (st1 : PState G V Mut),
      getGlyphMutator E st gn false true = .ok m st1 →
      (inst.glyphs.find? fun p => p.1 = gn) = none →
      makeGlyphValue E m inst.location = .error .indexError →
      glyphStep E inst st font gn
        = .ok () (st1,
            { font with glyphs := fun n =>
                if n = gn then some OutGlyph.empty else font.glyphs n })) ∧
    (∀ (E : Externals G V Mut) (inst : InstanceDescriptor)
      (st : PState G V Mut) (font : OutFont V) (gn : String)
      (rest : List String) (stf : PState G V Mut × OutFont V),
      glyphStep E inst st font gn = .ok () stf →
      glyphLoop E inst (st, font) (gn :: rest) = glyphLoop E inst stf rest) := by
  refine ⟨?_, ?_, ?_, ?_, ?_, ?_, ?_⟩
  · intro E st flag h
    simp [generateUFO, h]
  · exact fun E inst locH st font e st1 hk hmut =>
      kerningStep_mutator_exn E inst locH st font e st1 hk hmut
  · exact fun E inst locH st font m st1 e hk hmut hval =>
      kerningStep_eval_exn E inst locH st font m st1 e hk hmut hval
  · exact fun E inst loc locH locV aniso st font e st1 hmut =>
      infoStep_mutator_exn E inst loc locH locV aniso st font e st1 hmut
  · exact fun E inst st font gn e st1 hmut =>
      glyphStep_mutator_exn E inst st font gn e st1 hmut
  · exact fun E inst st font gn m st1 hmut hov hval =>
      glyphStep_indexError E inst st font gn m st1 hmut hov hval
  · intro E inst st font gn rest stf h
    simp [glyphLoop, h]

/-- Claim C2 (corrected, counterexample part): a concrete per-glyph
interpolation failure (`IndexError`) that *is* caught — the step returns
normally with the glyph left empty — yet the problems log is left
exactly as it was: a caught failure dropped without an entry, refuting
the claim that no caught failure is ever dropped. -/
theorem error_policy_counterexample :
    idxE.makeInst () plainInst.location = .error .indexError ∧
    glyphStep idxE plainInst demoStateCached OutFont.empty "a"
      = .ok () (demoStateCached,
          withEmptyGlyph "a" (OutFont.empty : OutFont ℚ)) ∧
    demoStateCached.problems = [] :=
  ⟨rfl, rfl, rfl⟩

/-- Witness for the amended C2 at concrete inputs: the missing default
aborts `generateUFO`, a failing kerning step logs a problem, and the
caught `IndexError` leaves the problems log untouched. -/
theorem error_policy_witness :
    generateUFO noDefaultE noDefaultState true
      = .exn .ufoProcessorError { noDefaultState with default := none } ∧
    glyphStep idxE plainInst demoStateCached OutFont.empty "a"
      = .ok () (demoStateCached,
          withEmptyGlyph "a" (OutFont.empty : OutFont ℚ)) :=
  ⟨error_policy.1 noDefaultE noDefaultState true rfl,
   error_policy.2.2.2.2.2.1 idxE plainInst demoStateCached OutFont.empty "a"
     () demoStateCached rfl rfl rfl⟩

end Main

end UFOProcessor
